import Mathlib

/-!
Shallow embedding of the ddosint repository: the three source files
api_client.py (class DDoSiaAPIClient), export.py (class DataExporter) and
cli.py (class DDoSINTCLI), together with proofs about the claims of the
natural-language specification.

Modelling conventions:
* JSON values decoded by response.json are the inductive type JValue, with
  numbers restricted to integers (the API payloads carry counters) and
  object fields kept in insertion order, as Python dicts keep them.
* Python exceptions are the inductive type PyExc: valueError covers the
  ValueError family (which includes the date-validation error, the
  API-level error, the invalid-JSON error and the empty-CSV error, exactly
  the ones raised with raise ValueError in the source), requestException
  covers requests.exceptions.RequestException, and typeError covers the
  remaining runtime exceptions (TypeError, AttributeError and similar),
  which the command layer treats uniformly as unexpected.
* The network is a function from requests to outcomes; each client
  operation also returns the list of HTTP requests it issued, so that
  "no network call is made" is the trace being empty.
* Filesystem effects are returned as a list of FsOp values in program
  order; path resolution (Path.expanduser, Path.resolve) is treated as the
  identity on the directory string, and a path is a directory plus a file
  name, matching every call site in the source.
* Text written by print is returned as a list of lines (one entry per
  print call). When Python would raise an exception halfway through a
  sequence of print calls, the lines printed before the exception are not
  tracked; no claim depends on them.
* The regular expression \x5cd of the date check is modelled as the ASCII
  decimal digits; the API serves ASCII dates, and no claim depends on
  non-ASCII Unicode digit characters. Python semantics of re.match with a
  final dollar anchor (which also matches just before one trailing
  newline) are preserved.
-/

/-- JSON values as decoded by response.json and consumed by json.dump. -/
inductive JValue where
  | null : JValue
  | bool (b : Bool) : JValue
  | num (n : Int) : JValue
  | str (s : String) : JValue
  | arr (xs : List JValue) : JValue
  | obj (kvs : List (String × JValue)) : JValue
  deriving Repr

/-- Python exceptions that the source can raise, grouped by the except
clauses of cli.py: ValueError, requests RequestException, and everything
else (runtime errors such as TypeError or AttributeError). -/
inductive PyExc where
  | valueError (msg : String) : PyExc
  | requestException (msg : String) : PyExc
  | typeError (msg : String) : PyExc
  deriving Repr, DecidableEq

/-- Whether the exception is caught by an except ValueError clause. -/
def PyExc.isValueError : PyExc → Bool
  | .valueError _ => true
  | _ => false

/-- The message of the exception, what str(e) yields in Python. -/
def PyExc.msg : PyExc → String
  | .valueError m => m
  | .requestException m => m
  | .typeError m => m

/-- Decimal digits of a natural number, most significant first; the first
argument is fuel making the recursion structural. -/
def renderNatChars : Nat → Nat → List Char
  | 0, _ => []
  | fuel + 1, n =>
    if n < 10 then [Nat.digitChar n]
    else renderNatChars fuel (n / 10) ++ [Nat.digitChar (n % 10)]

/-- Decimal notation of a natural number. -/
def renderNat (n : Nat) : List Char := renderNatChars (n + 1) n

/-- Decimal notation of an integer, as Python str renders an int. -/
def renderInt (i : Int) : List Char :=
  if i < 0 then '-' :: renderNat i.natAbs else renderNat i.toNat

/-- Decimal notation of an integer as a string. -/
def intStr (i : Int) : String := String.mk (renderInt i)

mutual
/-- Python repr of a decoded JSON value (nested values inside str calls).
The quote-escaping subtleties of repr on strings are not modelled; this
only feeds human-readable message text. -/
def pyRepr : JValue → String
  | .null => "None"
  | .bool b => if b then "True" else "False"
  | .num n => intStr n
  | .str s => "\x27" ++ s ++ "\x27"
  | .arr xs => "[" ++ pyReprList xs ++ "]"
  | .obj kvs => "\x7b" ++ pyReprObj kvs ++ "\x7d"

/-- Comma-separated repr of list elements. -/
def pyReprList : List JValue → String
  | [] => ""
  | [x] => pyRepr x
  | x :: y :: xs => pyRepr x ++ ", " ++ pyReprList (y :: xs)

/-- Comma-separated repr of dict items. -/
def pyReprObj : List (String × JValue) → String
  | [] => ""
  | [(k, v)] => "\x27" ++ k ++ "\x27: " ++ pyRepr v
  | (k, v) :: m :: kvs => "\x27" ++ k ++ "\x27: " ++ pyRepr v ++ ", " ++ pyReprObj (m :: kvs)
end

/-- Python str of a decoded JSON value, as used inside f-strings. -/
def pyStr : JValue → String
  | .str s => s
  | v => pyRepr v

/-- Python truthiness of a decoded JSON value. -/
def truthy : JValue → Bool
  | .null => false
  | .bool b => b
  | .num n => n != 0
  | .str s => !s.data.isEmpty
  | .arr xs => !xs.isEmpty
  | .obj kvs => !kvs.isEmpty

/-- Truthiness of the result of dict.get, where a missing key yields None. -/
def truthyOpt : Option JValue → Bool
  | none => false
  | some v => truthy v

/-- Python x.get(k) on a decoded JSON value: a dictionary lookup, or an
AttributeError on anything that is not a dict. -/
def pyGet (v : JValue) (k : String) : Except PyExc (Option JValue) :=
  match v with
  | .obj kvs => .ok (List.lookup k kvs)
  | _ => .error (.typeError ("object has no attribute " ++ "\x27get\x27"))

/-- Python x.get(k, d) on a decoded JSON value. -/
def pyGetD (v : JValue) (k : String) (d : JValue) : Except PyExc JValue :=
  (pyGet v k).map (fun o => o.getD d)

/-- Is the value the string literal error, for list membership tests. -/
def isStrError : JValue → Bool
  | .str s => s == "error"
  | _ => false

/-- Is one character list a prefix of another. -/
def isPrefixB : List Char → List Char → Bool
  | [], _ => true
  | _ :: _, [] => false
  | a :: as, b :: bs => a == b && isPrefixB as bs

/-- Does the haystack contain the needle as a contiguous substring. -/
def containsSub (needle : List Char) : List Char → Bool
  | [] => needle.isEmpty
  | c :: rest => isPrefixB needle (c :: rest) || containsSub needle rest

/-- Python lowercasing of a string via per-character ASCII lowering; the
source compares format strings such as json and CSV, all ASCII. -/
def pyLower (s : String) : String := String.mk (s.data.map Char.toLower)

/-- Python uppercasing of a string via per-character ASCII raising. -/
def pyUpper (s : String) : String := String.mk (s.data.map Char.toUpper)

/-- Python host.replace of a dot by an underscore, characterwise. -/
def replaceDot (s : String) : String :=
  String.mk (s.data.map (fun c => if c = '.' then '_' else c))

/-- Python s[:n] for an integer n: a nonnegative bound takes a prefix, a
negative bound drops that many elements from the end. -/
def pySlice {α : Type} (xs : List α) (n : Int) : List α :=
  if 0 ≤ n then xs.take n.toNat else xs.take (xs.length - (-n).toNat)

/-- Right-aligned rendering to a given width, Python format spec Nd. -/
def padLeft (w : Nat) (s : String) : String :=
  String.mk (List.replicate (w - s.data.length) ' ') ++ s

/-! API client: DDoSiaAPIClient of api_client.py. -/

/-- One HTTP GET request: endpoint path plus query parameters (query
values are rendered as strings). -/
structure Request where
  endpoint : String
  params : List (String × String)
  deriving Repr, DecidableEq

/-- The outcome of one HTTP exchange as seen by the client: a transport
failure carrying the exception text, or a response with a status code and
a body that either decodes as JSON or fails to parse (carrying the parser
message). -/
inductive HttpOutcome where
  | netFail (msg : String) : HttpOutcome
  | response (status : Nat) (body : Except String JValue) : HttpOutcome

/-- The message of the HTTPError that response.raise_for_status raises for
a 4xx or 5xx status; the reason phrase and URL that requests would append
are environment data outside the model. -/
def httpErrorText (status : Nat) : String :=
  if status < 500 then intStr status ++ " Client Error"
  else intStr status ++ " Server Error"

/-- Python membership test for the key error in the decoded body, as in
the source line checking error in data: key membership for a dict, element
membership for a list, substring for a string, TypeError otherwise. -/
def containsErrorKey (data : JValue) : Except PyExc Bool :=
  match data with
  | .obj kvs => .ok (kvs.any (fun kv => kv.1 == "error"))
  | .arr xs => .ok (xs.any isStrError)
  | .str s => .ok (containsSub "error".data s.data)
  | _ => .error (.typeError "argument is not iterable")

/-- DDoSiaAPIClient._request: one GET request. raise_for_status fires
first (4xx and 5xx become a RequestException re-raised as a connection
failure message), then the body is parsed (a parse failure becomes the
invalid-JSON ValueError), then a top-level error key in the body raises
the API-level ValueError, and otherwise the body is returned unchanged.
The second component is the trace of HTTP requests issued. -/
def _request (net : Request → HttpOutcome) (endpoint : String)
    (params : List (String × String)) : Except PyExc JValue × List Request :=
  let req : Request := ⟨endpoint, params⟩
  let res : Except PyExc JValue :=
    match net req with
    | .netFail msg => .error (.requestException ("Failed to connect to API: " ++ msg))
    | .response status body =>
      if 400 ≤ status ∧ status < 600 then
        .error (.requestException ("Failed to connect to API: " ++ httpErrorText status))
      else
        match body with
        | .error msg => .error (.valueError ("Invalid JSON response: " ++ msg))
        | .ok data =>
          match containsErrorKey data with
          | .error e => .error e
          | .ok true =>
            match data with
            | .obj kvs =>
              .error (.valueError ("API Error: " ++ pyStr ((List.lookup "error" kvs).getD .null)))
            | _ => .error (.typeError "indices must be integers")
          | .ok false => .ok data
  (res, [req])

/-- DDoSiaAPIClient.get_stats. -/
def get_stats (net : Request → HttpOutcome) (stat_type : String) :
    Except PyExc JValue × List Request :=
  _request net "stats.php" [("type", stat_type)]

/-- DDoSiaAPIClient.get_recent_targets. -/
def get_recent_targets (net : Request → HttpOutcome) (limit : Int) :
    Except PyExc JValue × List Request :=
  _request net "recent_targets.php" [("limit", intStr limit)]

/-- DDoSiaAPIClient.search_host. -/
def search_host (net : Request → HttpOutcome) (host : String) :
    Except PyExc JValue × List Request :=
  _request net "search_host.php" [("host", host)]

/-- ASCII decimal digit test, the model of the regex class \x5cd. -/
def isDigitCh (c : Char) : Bool := 48 ≤ c.toNat && c.toNat ≤ 57

/-- Exactly the shape of four digits, a dash, two digits, a dash and two
digits, the core of the date regex. -/
def dateShape : List Char → Bool
  | [a, b, c, d, e, f, g, h, i, j] =>
    isDigitCh a && isDigitCh b && isDigitCh c && isDigitCh d &&
    e == '-' && isDigitCh f && isDigitCh g && h == '-' &&
    isDigitCh i && isDigitCh j
  | _ => false

/-- Python re.match of the anchored date pattern against the whole string:
the dollar anchor also matches just before a single trailing newline, so a
match succeeds on the bare ten-character shape or on the shape followed by
one newline. -/
def reDateMatch (s : String) : Bool :=
  dateShape s.data || (s.data.getLast? == some '\n' && dateShape s.data.dropLast)

/-- DDoSiaAPIClient.get_targets_by_date: validates the date against the
regex before issuing the request; an invalid date raises the validation
ValueError with no request issued. -/
def get_targets_by_date (net : Request → HttpOutcome) (date : String) :
    Except PyExc JValue × List Request :=
  if reDateMatch date then _request net "targets_by_date.php" [("date", date)]
  else (.error (.valueError "Date must be in YYYY-MM-DD format"), [])

/-- DDoSiaAPIClient.get_available_dates. -/
def get_available_dates (net : Request → HttpOutcome) :
    Except PyExc JValue × List Request :=
  _request net "available_dates.php" []

/-! JSON serialization: json.dump with ensure_ascii False, and the json
module parser (json.loads), used to state the round-trip property. -/

/-- One hexadecimal digit character, lowercase, as the %04x format of the
json encoder emits. -/
def hexDigit (n : Nat) : Char := Nat.digitChar n

/-- The escape of one character inside a JSON string, following the json
encoder with ensure_ascii False: quote, backslash and the five shorthand
control characters get two-character escapes, the remaining control
characters below 32 get a u-escape, and every other character, non-ASCII
included, is written verbatim. -/
def escapeChar (c : Char) : List Char :=
  if c = '"' then ['\\', '"']
  else if c = '\\' then ['\\', '\\']
  else if c = '\n' then ['\\', 'n']
  else if c = '\t' then ['\\', 't']
  else if c = '\r' then ['\\', 'r']
  else if c = '\x08' then ['\\', 'b']
  else if c = '\x0c' then ['\\', 'f']
  else if c.toNat < 32 then
    ['\\', 'u', '0', '0', hexDigit (c.toNat / 16), hexDigit (c.toNat % 16)]
  else [c]

/-- Escape of a whole string body. -/
def escapeChars : List Char → List Char
  | [] => []
  | c :: cs => escapeChar c ++ escapeChars cs

/-- Indentation at a nesting level: two spaces per level, json.dump with
indent 2. -/
def jsonInd (lvl : Nat) : List Char := List.replicate (2 * lvl) ' '

mutual
/-- Pretty rendering of a value at a nesting level, as json.dump writes it
with indent 2 and ensure_ascii False (item separator a bare comma, key
separator a colon and a space). -/
def jsonRender : Nat → JValue → List Char
  | _, .null => 'n' :: 'u' :: 'l' :: 'l' :: []
  | _, .bool true => 't' :: 'r' :: 'u' :: 'e' :: []
  | _, .bool false => 'f' :: 'a' :: 'l' :: 's' :: 'e' :: []
  | _, .num n => renderInt n
  | _, .str s => '"' :: (escapeChars s.data ++ ['"'])
  | lvl, .arr xs =>
    match xs with
    | [] => ['[', ']']
    | _ :: _ => '[' :: (jsonRenderElems lvl xs ++ '\n' :: (jsonInd lvl ++ [']']))
  | lvl, .obj kvs =>
    match kvs with
    | [] => ['\x7b', '\x7d']
    | _ :: _ => '\x7b' :: (jsonRenderMems lvl kvs ++ '\n' :: (jsonInd lvl ++ ['\x7d']))

/-- Array elements, each on its own indented line, comma separated. -/
def jsonRenderElems : Nat → List JValue → List Char
  | _, [] => []
  | lvl, [x] => '\n' :: (jsonInd (lvl + 1) ++ jsonRender (lvl + 1) x)
  | lvl, x :: y :: ys =>
    '\n' :: (jsonInd (lvl + 1) ++ jsonRender (lvl + 1) x) ++
      ',' :: jsonRenderElems lvl (y :: ys)

/-- Object members, each on its own indented line, comma separated, the
key a JSON string followed by a colon and a space. -/
def jsonRenderMems : Nat → List (String × JValue) → List Char
  | _, [] => []
  | lvl, [(k, v)] =>
    '\n' :: (jsonInd (lvl + 1) ++ '"' :: (escapeChars k.data ++
      '"' :: ':' :: ' ' :: jsonRender (lvl + 1) v))
  | lvl, (k, v) :: m :: ms =>
    '\n' :: (jsonInd (lvl + 1) ++ '"' :: (escapeChars k.data ++
      '"' :: ':' :: ' ' :: jsonRender (lvl + 1) v)) ++
      ',' :: jsonRenderMems lvl (m :: ms)
end

mutual
/-- Compact rendering, json.dump without indent: item separator a comma
and a space, key separator a colon and a space. -/
def jsonRenderC : JValue → List Char
  | .null => 'n' :: 'u' :: 'l' :: 'l' :: []
  | .bool true => 't' :: 'r' :: 'u' :: 'e' :: []
  | .bool false => 'f' :: 'a' :: 'l' :: 's' :: 'e' :: []
  | .num n => renderInt n
  | .str s => '"' :: (escapeChars s.data ++ ['"'])
  | .arr xs => '[' :: (jsonRenderCElems xs ++ [']'])
  | .obj kvs => '\x7b' :: (jsonRenderCMems kvs ++ ['\x7d'])

/-- Compact array elements. -/
def jsonRenderCElems : List JValue → List Char
  | [] => []
  | [x] => jsonRenderC x
  | x :: y :: ys => jsonRenderC x ++ ',' :: ' ' :: jsonRenderCElems (y :: ys)

/-- Compact object members. -/
def jsonRenderCMems : List (String × JValue) → List Char
  | [] => []
  | [(k, v)] => '"' :: (escapeChars k.data ++ '"' :: ':' :: ' ' :: jsonRenderC v)
  | (k, v) :: m :: ms =>
    '"' :: (escapeChars k.data ++ '"' :: ':' :: ' ' :: jsonRenderC v) ++
      ',' :: ' ' :: jsonRenderCMems (m :: ms)
end

/-- JSON whitespace. -/
def isWs (c : Char) : Bool := c == ' ' || c == '\n' || c == '\t' || c == '\r'

/-- Drop leading JSON whitespace. -/
def skipWs : List Char → List Char
  | [] => []
  | c :: cs => if isWs c then skipWs cs else c :: cs

/-- Value of one hexadecimal digit character, if any. -/
def hexVal (c : Char) : Option Nat :=
  if 48 ≤ c.toNat && c.toNat ≤ 57 then some (c.toNat - 48)
  else if 97 ≤ c.toNat && c.toNat ≤ 102 then some (c.toNat - 87)
  else if 65 ≤ c.toNat && c.toNat ≤ 70 then some (c.toNat - 55)
  else none

/-- Decoding of the two-character escapes of the json parser. -/
def decodeEsc (e : Char) : Option Char :=
  if e = '"' then some '"'
  else if e = '\\' then some '\\'
  else if e = '/' then some '/'
  else if e = 'b' then some '\x08'
  else if e = 'f' then some '\x0c'
  else if e = 'n' then some '\n'
  else if e = 'r' then some '\r'
  else if e = 't' then some '\t'
  else none

/-- Parse the body of a JSON string after the opening quote, returning the
decoded characters and the input after the closing quote. Escapes are
decoded as the json module does; an unescaped control character below 32
is rejected, as the strict json parser rejects it. -/
def parseStrChars : List Char → Option (List Char × List Char)
  | [] => none
  | '"' :: rest => some ([], rest)
  | '\\' :: 'u' :: h1 :: h2 :: h3 :: h4 :: rest2 =>
    match hexVal h1, hexVal h2, hexVal h3, hexVal h4 with
    | some a, some b, some c2, some d =>
      (parseStrChars rest2).map
        (fun p => (Char.ofNat (4096 * a + 256 * b + 16 * c2 + d) :: p.1, p.2))
    | _, _, _, _ => none
  | '\\' :: e :: rest1 =>
    if e = 'u' then none
    else
      match decodeEsc e with
      | some d => (parseStrChars rest1).map (fun p => (d :: p.1, p.2))
      | none => none
  | c :: rest =>
    if c.toNat < 32 then none
    else (parseStrChars rest).map (fun p => (c :: p.1, p.2))

/-- Parse a nonempty run of decimal digits. -/
def parseNatNum (cs : List Char) : Option (Nat × List Char) :=
  let ds := cs.takeWhile isDigitCh
  if ds.isEmpty then none
  else some (ds.foldl (fun a c => 10 * a + (c.toNat - 48)) 0, cs.dropWhile isDigitCh)

/-- Python dict item insertion d at k set to v: an existing key keeps its
position and takes the new value, a fresh key is appended. -/
def pyDictInsert (kvs : List (String × JValue)) (k : String) (v : JValue) :
    List (String × JValue) :=
  if (kvs.map Prod.fst).contains k then
    kvs.map (fun kv => if kv.1 == k then (kv.1, v) else kv)
  else kvs ++ [(k, v)]

/-- Python dict built from a sequence of pairs, as the json parser builds
an object: a repeated key keeps its first position and its last value. -/
def pyDictOfPairs (pairs : List (String × JValue)) : List (String × JValue) :=
  pairs.foldl (fun d kv => pyDictInsert d kv.1 kv.2) []

mutual
/-- Parse one JSON value, skipping leading whitespace; the fuel only bounds
the nesting of recursive calls and is decremented at each inner call. -/
def parseVal : Nat → List Char → Option (JValue × List Char)
  | 0, _ => none
  | fuel + 1, cs =>
    match skipWs cs with
    | [] => none
    | c :: rest =>
      if c = '"' then
        (parseStrChars rest).map (fun p => (JValue.str (String.mk p.1), p.2))
      else if c = '[' then
        match skipWs rest with
        | [] => none
        | d :: rest2 =>
          if d = ']' then some (.arr [], rest2)
          else (parseElems fuel (d :: rest2)).map (fun p => (JValue.arr p.1, p.2))
      else if c = '\x7b' then
        match skipWs rest with
        | [] => none
        | d :: rest2 =>
          if d = '\x7d' then some (.obj [], rest2)
          else (parseMems fuel (d :: rest2)).map
            (fun p => (JValue.obj (pyDictOfPairs p.1), p.2))
      else if c = '-' then
        (parseNatNum rest).map (fun p => (JValue.num (-(p.1 : Int)), p.2))
      else if isDigitCh c then
        (parseNatNum (c :: rest)).map (fun p => (JValue.num (p.1 : Int), p.2))
      else if c = 't' then
        match rest with
        | 'r' :: 'u' :: 'e' :: rest2 => some (.bool true, rest2)
        | _ => none
      else if c = 'f' then
        match rest with
        | 'a' :: 'l' :: 's' :: 'e' :: rest2 => some (.bool false, rest2)
        | _ => none
      else if c = 'n' then
        match rest with
        | 'u' :: 'l' :: 'l' :: rest2 => some (.null, rest2)
        | _ => none
      else none

/-- Parse the elements of a nonempty array after the opening bracket. -/
def parseElems : Nat → List Char → Option (List JValue × List Char)
  | 0, _ => none
  | fuel + 1, cs =>
    match parseVal fuel cs with
    | some (v, rest) =>
      match skipWs rest with
      | [] => none
      | c :: rest2 =>
        if c = ',' then (parseElems fuel rest2).map (fun p => (v :: p.1, p.2))
        else if c = ']' then some ([v], rest2)
        else none
    | none => none

/-- Parse the members of a nonempty object after the opening brace. -/
def parseMems : Nat → List Char → Option (List (String × JValue) × List Char)
  | 0, _ => none
  | fuel + 1, cs =>
    match skipWs cs with
    | [] => none
    | c :: rest =>
      if c = '"' then
        match parseStrChars rest with
        | some (k, rest2) =>
          match skipWs rest2 with
          | [] => none
          | c2 :: rest3 =>
            if c2 = ':' then
              match parseVal fuel rest3 with
              | some (v, rest4) =>
                match skipWs rest4 with
                | [] => none
                | c3 :: rest5 =>
                  if c3 = ',' then
                    (parseMems fuel rest5).map (fun p => ((String.mk k, v) :: p.1, p.2))
                  else if c3 = '\x7d' then some ([(String.mk k, v)], rest5)
                  else none
              | none => none
            else none
        | none => none
      else none
end

/-- json.loads on a whole string: parse one value and require only
whitespace after it. The fuel is one more than the input length, which a
lemma shows suffices for every rendered value. -/
def parseJson (s : String) : Option JValue :=
  match parseVal (s.data.length + 1) s.data with
  | some (v, rest) => if (skipWs rest).isEmpty then some v else none
  | none => none

/-- Pairwise distinctness of a key list. -/
def nodupKeysB : List String → Bool
  | [] => true
  | k :: ks => !ks.contains k && nodupKeysB ks

mutual
/-- Every object anywhere inside the value has pairwise distinct keys;
this is the invariant of data decoded from Python dicts, which cannot
carry a duplicate key. -/
def wellKeyed : JValue → Bool
  | .null => true
  | .bool _ => true
  | .num _ => true
  | .str _ => true
  | .arr xs => wellKeyedList xs
  | .obj kvs => nodupKeysB (kvs.map Prod.fst) && wellKeyedMems kvs

/-- wellKeyed on every list element. -/
def wellKeyedList : List JValue → Bool
  | [] => true
  | x :: xs => wellKeyed x && wellKeyedList xs

/-- wellKeyed on every member value. -/
def wellKeyedMems : List (String × JValue) → Bool
  | [] => true
  | kv :: kvs => wellKeyed kv.2 && wellKeyedMems kvs
end

mutual
/-- Fuel sufficient for parseVal to parse a rendering of the value. -/
def pfuel : JValue → Nat
  | .null => 1
  | .bool _ => 1
  | .num _ => 1
  | .str _ => 1
  | .arr xs => 1 + pfuelElems xs
  | .obj kvs => 1 + pfuelMems kvs

/-- Fuel sufficient for parseElems on the rendered elements. -/
def pfuelElems : List JValue → Nat
  | [] => 1
  | x :: xs => 1 + pfuel x + pfuelElems xs

/-- Fuel sufficient for parseMems on the rendered members. -/
def pfuelMems : List (String × JValue) → Nat
  | [] => 1
  | kv :: kvs => 1 + pfuel kv.2 + pfuelMems kvs
end

/-- No leading decimal digit, the side condition under which the greedy
number parser stops exactly at the rendered digits. -/
def noDigitHead : List Char → Bool
  | [] => true
  | c :: _ => !isDigitCh c

/-- The parser inverts the pretty renderer on this value: with enough
fuel, any nesting level and any non-digit-leading continuation, parsing
the rendering followed by the continuation returns the value and the
continuation, provided every object inside has distinct keys. -/
def RoundTrips (v : JValue) : Prop :=
  ∀ fuel lvl rest, pfuel v ≤ fuel → noDigitHead rest = true → wellKeyed v = true →
    parseVal fuel (jsonRender lvl v ++ rest) = some (v, rest)

mutual
/-- Induction over a JSON value that hands each list element and each
member value to the inductive hypothesis. -/
def jvalueRecAll (P : JValue → Prop) (h0 : P .null) (h1 : ∀ b, P (.bool b))
    (h2 : ∀ n, P (.num n)) (h3 : ∀ s, P (.str s))
    (h4 : ∀ xs, (∀ x ∈ xs, P x) → P (.arr xs))
    (h5 : ∀ kvs, (∀ kv ∈ kvs, P kv.2) → P (.obj kvs)) : ∀ v, P v
  | .null => h0
  | .bool b => h1 b
  | .num n => h2 n
  | .str s => h3 s
  | .arr xs => h4 xs (jvalueRecAllList P h0 h1 h2 h3 h4 h5 xs)
  | .obj kvs => h5 kvs (jvalueRecAllMems P h0 h1 h2 h3 h4 h5 kvs)

/-- Pointwise induction hypothesis for a list of values. -/
def jvalueRecAllList (P : JValue → Prop) (h0 : P .null) (h1 : ∀ b, P (.bool b))
    (h2 : ∀ n, P (.num n)) (h3 : ∀ s, P (.str s))
    (h4 : ∀ xs, (∀ x ∈ xs, P x) → P (.arr xs))
    (h5 : ∀ kvs, (∀ kv ∈ kvs, P kv.2) → P (.obj kvs)) :
    ∀ xs : List JValue, ∀ x, x ∈ xs → P x
  | [] => by
    intro x hx
    exact absurd hx (List.not_mem_nil x)
  | y :: ys => by
    intro x hx
    rcases List.mem_cons.mp hx with h | h
    · exact h ▸ jvalueRecAll P h0 h1 h2 h3 h4 h5 y
    · exact jvalueRecAllList P h0 h1 h2 h3 h4 h5 ys x h

/-- Pointwise induction hypothesis for the member values of an object. -/
def jvalueRecAllMems (P : JValue → Prop) (h0 : P .null) (h1 : ∀ b, P (.bool b))
    (h2 : ∀ n, P (.num n)) (h3 : ∀ s, P (.str s))
    (h4 : ∀ xs, (∀ x ∈ xs, P x) → P (.arr xs))
    (h5 : ∀ kvs, (∀ kv ∈ kvs, P kv.2) → P (.obj kvs)) :
    ∀ kvs : List (String × JValue), ∀ kv, kv ∈ kvs → P kv.2
  | [] => by
    intro kv hkv
    exact absurd hkv (List.not_mem_nil kv)
  | m :: ms => by
    intro kv hkv
    rcases List.mem_cons.mp hkv with h | h
    · exact h ▸ jvalueRecAll P h0 h1 h2 h3 h4 h5 m.2
    · exact jvalueRecAllMems P h0 h1 h2 h3 h4 h5 ms kv h
end

/-- What follows the rendering of one array element: the closing of the
array when it is the last element, or the comma and the remaining
elements. -/
def jsonElemsTail (lvl : Nat) (xs : List JValue) (rest : List Char) : List Char :=
  match xs with
  | [] => '\n' :: (jsonInd lvl ++ (']' :: rest))
  | _ :: _ => ',' :: (jsonRenderElems lvl xs ++ ('\n' :: (jsonInd lvl ++ (']' :: rest))))

/-- What follows the rendering of one object member: the closing of the
object when it is the last member, or the comma and the remaining
members. -/
def jsonMemsTail (lvl : Nat) (kvs : List (String × JValue)) (rest : List Char) : List Char :=
  match kvs with
  | [] => '\n' :: (jsonInd lvl ++ ('\x7d' :: rest))
  | _ :: _ => ',' :: (jsonRenderMems lvl kvs ++ ('\n' :: (jsonInd lvl ++ ('\x7d' :: rest))))

/-! Data exporter: DataExporter of export.py. -/

/-- One filesystem effect: a directory creation (mkdir with parents, which
succeeds when the directory exists) or one whole-file write of text
content into a directory under a file name. -/
inductive FsOp where
  | mkdir (dir : String) : FsOp
  | write (dir : String) (file : String) (content : String) : FsOp
  deriving Repr, DecidableEq

/-- Joining a directory and a file name, str of the Path value. -/
def joinPath (dir file : String) : String := dir ++ "/" ++ file

/-- Strict lexicographic comparison of character lists by code point. -/
def strLtB : List Char → List Char → Bool
  | [], [] => false
  | [], _ :: _ => true
  | _ :: _, [] => false
  | a :: as, b :: bs =>
    if a.toNat < b.toNat then true
    else if a.toNat = b.toNat then strLtB as bs
    else false

/-- Lexicographic at-most comparison of strings by code point, the order
Python sorted uses on strings. -/
def strLeB (a b : String) : Bool := !strLtB b.data a.data

/-- Ordered insertion for the string sort. -/
def insertStr (x : String) : List String → List String
  | [] => [x]
  | y :: ys => if strLeB x y then x :: y :: ys else y :: insertStr x ys

/-- Ascending sort of a list of strings, the model of Python sorted. -/
def sortStrs : List String → List String
  | [] => []
  | x :: xs => insertStr x (sortStrs xs)

/-- The keys of one row mapping. -/
def rowKeys (r : List (String × JValue)) : List String := r.map Prod.fst

/-- The CSV header schema of export_csv: the union of the keys of all
rows (a set in the source), sorted ascending. -/
def csvFieldnames (rows : List (List (String × JValue))) : List String :=
  sortStrs ((rows.map rowKeys).flatten).dedup

/-- Quoting of one CSV field under the default excel dialect with minimal
quoting: a field containing a comma, a quote or a line break is wrapped in
quotes with inner quotes doubled. -/
def csvQuote (s : String) : String :=
  if s.data.any (fun c => c == ',' || c == '"' || c == '\r' || c == '\n') then
    "\"" ++ String.mk ((s.data.map (fun c => if c = '"' then ['"', '"'] else [c])).flatten) ++ "\""
  else s

/-- One CSV cell: the csv writer renders None as the empty field and
everything else via str, quoted as needed. -/
def csvCell : JValue → String
  | .null => ""
  | v => csvQuote (pyStr v)

/-- One CSV data row in fieldname order; a key missing from the row
renders as the empty string (the restval of DictWriter). -/
def csvRow (fieldnames : List String) (row : List (String × JValue)) : String :=
  String.intercalate ","
    (fieldnames.map (fun k =>
      match List.lookup k row with
      | some v => csvCell v
      | none => ""))

/-- The full CSV file text: header row then data rows, each terminated by
the default excel line terminator. -/
def csvContent (fieldnames : List String) (rows : List (List (String × JValue))) : String :=
  String.join (((String.intercalate "," (fieldnames.map csvQuote)) ::
    rows.map (csvRow fieldnames)).map (fun l => l ++ "\r\n"))

/-- View a list of decoded JSON values as row mappings, failing on any
element that is not a mapping. -/
def asRowsList : List JValue → Option (List (List (String × JValue)))
  | [] => some []
  | JValue.obj kvs :: xs => (asRowsList xs).map (fun rs => kvs :: rs)
  | _ :: _ => none

/-- View a decoded JSON value as a list of row mappings, as the fieldnames
loop of export_csv requires; anything else raises on target.keys(). -/
def asRows : JValue → Option (List (List (String × JValue)))
  | .arr xs => asRowsList xs
  | _ => none

/-- DataExporter.export_json: creates the parent directory and writes the
serialized data, pretty with indent 2 or compact, UTF-8 with non-ASCII
kept verbatim (ensure_ascii False); returns the path written. -/
def export_json (data : JValue) (dir file : String) (pretty : Bool) :
    Except PyExc String × List FsOp :=
  let content := String.mk (if pretty then jsonRender 0 data else jsonRenderC data)
  (.ok (joinPath dir file), [.mkdir dir, .write dir file content])

/-- DataExporter.export_csv: an empty (or otherwise falsy) targets value
raises the ValueError before any filesystem effect; then the parent
directory is created, the fieldnames are computed as the sorted union of
the row keys, and the file is written; a targets value that is not a list
of mappings raises where the fieldnames loop touches it, after the mkdir. -/
def export_csv (targets : JValue) (dir file : String) :
    Except PyExc String × List FsOp :=
  if !truthy targets then (.error (.valueError "No targets to export"), [])
  else
    match asRows targets with
    | none => (.error (.typeError ("object has no attribute " ++ "\x27keys\x27")), [.mkdir dir])
    | some rows =>
      (.ok (joinPath dir file),
        [.mkdir dir, .write dir file (csvContent (csvFieldnames rows) rows)])

/-- DataExporter.export_targets_by_date: creates the output directory,
derives the file name from the prefix and the date field (or the current
date when the field is missing), then dispatches on the lowercased format:
json serializes the whole api_data mapping, csv serializes only the
targets list (defaulting to an empty list, which export_csv then rejects),
and any other format raises the ValueError naming the unsupported value. -/
def export_targets_by_date (api_data : List (String × JValue))
    (output_dir fmt prefixArg today : String) : Except PyExc String × List FsOp :=
  let dateStr :=
    match List.lookup "date" api_data with
    | some v => pyStr v
    | none => today
  let targetsJ := (List.lookup "targets" api_data).getD (.arr [])
  if pyLower fmt == "json" then
    let r := export_json (.obj api_data) output_dir (prefixArg ++ "_" ++ dateStr ++ ".json") true
    (r.1, .mkdir output_dir :: r.2)
  else if pyLower fmt == "csv" then
    let r := export_csv targetsJ output_dir (prefixArg ++ "_" ++ dateStr ++ ".csv")
    (r.1, .mkdir output_dir :: r.2)
  else
    (.error (.valueError ("Unsupported format: " ++ fmt ++ ". Use \x27json\x27 or \x27csv\x27")),
      [.mkdir output_dir])

/-! Command dispatcher: DDoSINTCLI of cli.py. One CmdOut per command run:
the exit code, the lines printed to standard output, the lines printed to
the error stream, and the filesystem effects, in order. -/

/-- The observable outcome of one command invocation. -/
structure CmdOut where
  exit : Nat
  out : List String
  err : List String
  fs : List FsOp
  deriving Repr, DecidableEq

/-- The error line a command prints: the except ValueError clause prints
the Error prefix, the generic except Exception clause prints the
Unexpected error prefix. -/
def errLine (e : PyExc) : String :=
  match e with
  | .valueError m => "Error: " ++ m
  | .requestException m => "Unexpected error: " ++ m
  | .typeError m => "Unexpected error: " ++ m

/-- The resolved output directory: the output-dir argument when truthy
(Python or falls back on an empty string), else the working directory;
expanduser and resolve are modelled as the identity. -/
def resolveDir (od : Option String) (cwd : String) : String :=
  match od with
  | some s => if s.data.isEmpty then cwd else s
  | none => cwd

/-- Arguments of the extract command. -/
structure ExtractArgs where
  date : String
  format : String
  output_dir : Option String
  prefixArg : String

/-- DDoSINTCLI.cmd_extract: prints the fetching line, fetches the targets
for the date, treats a falsy targets field as the no-targets soft failure
(exit 1, message, no filesystem effect), otherwise exports via
export_targets_by_date and prints the summary block; a ValueError prints
with the Error prefix and any other exception with the Unexpected error
prefix, both with exit code 1. -/
def cmd_extract (net : Request → HttpOutcome) (args : ExtractArgs)
    (cwd today : String) : CmdOut :=
  let out0 := ["Fetching targets for date: " ++ args.date]
  match (get_targets_by_date net args.date).1 with
  | .error e => ⟨1, out0, [errLine e], []⟩
  | .ok data =>
    match data with
    | .obj kvs =>
      if !truthyOpt (List.lookup "targets" kvs) then
        ⟨1, out0 ++ ["No targets found for date " ++ args.date], [], []⟩
      else
        let dir := resolveDir args.output_dir cwd
        let r := export_targets_by_date kvs dir args.format args.prefixArg today
        match r.1 with
        | .error e => ⟨1, out0, [errLine e], r.2⟩
        | .ok file =>
          let stats := (List.lookup "stats" kvs).getD (.obj [])
          match pyGetD stats "total_targets" (.num 0),
              pyGetD stats "total_requests" (.num 0),
              pyGetD stats "unique_hosts" (.num 0) with
          | .error e, _, _ => ⟨1, out0, [errLine e], r.2⟩
          | _, .error e, _ => ⟨1, out0, [errLine e], r.2⟩
          | _, _, .error e => ⟨1, out0, [errLine e], r.2⟩
          | .ok tt, .ok tr, .ok uh =>
            ⟨0, out0 ++
              ["\n✓ Export completed successfully!",
               "  Date: " ++ args.date,
               "  Total Targets: " ++ pyStr tt,
               "  Total Requests: " ++ pyStr tr,
               "  Unique Hosts: " ++ pyStr uh,
               "  Format: " ++ pyUpper args.format,
               "  Output: " ++ file], [], r.2⟩
    | _ => ⟨1, out0, [errLine (.typeError ("object has no attribute " ++ "\x27get\x27"))], []⟩

/-- Arguments of the search command. -/
structure SearchArgs where
  host : String
  limit : Option Int
  exportFlag : Bool
  format : String
  output_dir : Option String

/-- Python str.join over a decoded JSON value, as the comma join of the
types and methods lines: joins a list of strings, joins the characters of
a string, and raises a TypeError otherwise or on a non-string element. -/
def joinStrs (v : JValue) : Except PyExc String :=
  match v with
  | .arr xs =>
    (xs.mapM (fun x =>
      match x with
      | JValue.str s => Except.ok s
      | _ => Except.error (PyExc.typeError "sequence item: expected str instance"))).map
      (String.intercalate ", ")
  | .str s => .ok (String.intercalate ", " (s.data.map (fun c => String.mk [c])))
  | _ => .error (.typeError "can only join an iterable")

/-- The aggregate block cmd_search prints from the stats mapping. -/
def searchStatsLines (stats : JValue) : Except PyExc (List String) := do
  let tt ← pyGetD stats "total_targets" (.num 0)
  let tr ← pyGetD stats "total_requests" (.num 0)
  let ui ← pyGetD stats "unique_ips" (.num 0)
  let ad ← pyGetD stats "active_days" (.num 0)
  let fsn ← pyGetD stats "first_seen" (.str "N/A")
  let lsn ← pyGetD stats "last_seen" (.str "N/A")
  let ty ← pyGetD stats "types" (.arr [])
  let tys ← joinStrs ty
  let me ← pyGetD stats "methods" (.arr [])
  let mes ← joinStrs me
  .ok ["\nSearch Results:",
    "  Total Targets: " ++ pyStr tt,
    "  Total Requests: " ++ pyStr tr,
    "  Unique IPs: " ++ pyStr ui,
    "  Active Days: " ++ pyStr ad,
    "  First Seen: " ++ pyStr fsn,
    "  Last Seen: " ++ pyStr lsn,
    "  Types: " ++ tys,
    "  Methods: " ++ mes]

/-- The lines cmd_search prints for one displayed target: the numbered
host line, then the IP line if the key is present, then the detection line
if the key is present. -/
def targetEntryLines (i : Nat) (t : JValue) : Except PyExc (List String) :=
  match t with
  | .obj kvs =>
    let l1 := "\n  [" ++ intStr i ++ "] " ++ pyStr ((List.lookup "host" kvs).getD (.str "N/A"))
    let l2 :=
      match List.lookup "ip" kvs with
      | some ip => ["      IP: " ++ pyStr ip]
      | none => []
    let l3 :=
      match List.lookup "detected_at" kvs with
      | some d => ["      Detected: " ++ pyStr d]
      | none => []
    .ok (l1 :: (l2 ++ l3))
  | _ => .error (.typeError ("object has no attribute " ++ "\x27get\x27"))

/-- The target display block of cmd_search when a truthy limit was given
and targets is truthy: a heading with min of limit and count, then the
sliced targets numbered from one, in server order. -/
def searchTargetLines (limit : Int) (targets : JValue) : Except PyExc (List String) :=
  match targets with
  | .arr xs => do
    let entries ← (pySlice xs limit).enum.mapM (fun p => targetEntryLines (p.1 + 1) p.2)
    .ok (("\nShowing first " ++ intStr (min limit (xs.length : Int)) ++ " targets:") ::
      entries.flatten)
  | _ => .error (.typeError "object is not subscriptable")

/-- DDoSINTCLI.cmd_search: prints the searching line, fetches the search
results, prints the aggregate stats, optionally prints up to limit target
entries, and when exporting writes the whole result as JSON or just the
targets as CSV to a filename derived from the host with dots replaced by
underscores; error mapping as in every command. -/
def cmd_search (net : Request → HttpOutcome) (args : SearchArgs) (cwd : String) : CmdOut :=
  let out0 := ["Searching for host: " ++ args.host]
  match (search_host net args.host).1 with
  | .error e => ⟨1, out0, [errLine e], []⟩
  | .ok data =>
    match data with
    | .obj kvs =>
      let stats := (List.lookup "stats" kvs).getD (.obj [])
      let targets := (List.lookup "targets" kvs).getD (.arr [])
      match searchStatsLines stats with
      | .error e => ⟨1, out0, [errLine e], []⟩
      | .ok ls1 =>
        let shown : Except PyExc (List String) :=
          match args.limit with
          | some n => if n != 0 && truthy targets then searchTargetLines n targets else .ok []
          | none => .ok []
        match shown with
        | .error e => ⟨1, out0 ++ ls1, [errLine e], []⟩
        | .ok ls2 =>
          if args.exportFlag then
            let dir := resolveDir args.output_dir cwd
            let res : Except PyExc String × List FsOp :=
              if args.format == "json" then
                export_json data dir ("search_" ++ replaceDot args.host ++ ".json") true
              else if args.format == "csv" then
                export_csv targets dir ("search_" ++ replaceDot args.host ++ ".csv")
              else (.error (.typeError "local variable referenced before assignment"), [])
            match res.1 with
            | .ok file => ⟨0, out0 ++ ls1 ++ ls2 ++ ["\n✓ Exported to: " ++ file], [], res.2⟩
            | .error e => ⟨1, out0 ++ ls1 ++ ls2, [errLine e], res.2⟩
          else ⟨0, out0 ++ ls1 ++ ls2, [], []⟩
    | _ => ⟨1, out0, [errLine (.typeError ("object has no attribute " ++ "\x27get\x27"))], []⟩

/-- Arguments of the stats command. -/
structure StatsArgs where
  type : String
  exportFlag : Bool
  output_dir : Option String

/-- The six-line overview block of cmd_stats. -/
def statsOverviewLines (data : JValue) : Except PyExc (List String) := do
  let a ← pyGetD data "total_targets" (.num 0)
  let b ← pyGetD data "total_requests" (.num 0)
  let c ← pyGetD data "total_hosts" (.num 0)
  let d ← pyGetD data "total_ips" (.num 0)
  let e ← pyGetD data "total_imports" (.num 0)
  let f ← pyGetD data "last_detected" (.str "N/A")
  .ok ["\n=== Overview Statistics ===",
    "Total Targets: " ++ pyStr a,
    "Total Requests: " ++ pyStr b,
    "Total Hosts: " ++ pyStr c,
    "Total IPs: " ++ pyStr d,
    "Total Imports: " ++ pyStr e,
    "Last Detected: " ++ pyStr f]

/-- The table block of cmd_stats for a non-overview type: header from the
key order of the first row, a dash rule ten longer than the header line,
then one pipe-joined line per row with missing keys as empty strings; a
non-list or empty payload prints only the section heading. -/
def statsTableLines (stype : String) (data : JValue) : Except PyExc (List String) :=
  let hdr := "\n=== Statistics (" ++ stype ++ ") ==="
  match data with
  | .arr (first :: restRows) =>
    match first with
    | .obj kvs0 =>
      let keys := kvs0.map Prod.fst
      let headerLine := String.intercalate " | " keys
      let dashes := String.mk (List.replicate (headerLine.data.length + 10) '-')
      ((first :: restRows).mapM (fun row =>
        match row with
        | JValue.obj rkvs =>
          Except.ok (String.intercalate " | "
            (keys.map (fun k => pyStr ((List.lookup k rkvs).getD (.str "")))))
        | _ => Except.error (PyExc.typeError ("object has no attribute " ++ "\x27get\x27")))).map
        (fun rows => hdr :: headerLine :: dashes :: rows)
    | _ => .error (.typeError ("object has no attribute " ++ "\x27keys\x27"))
  | _ => .ok [hdr]

/-- DDoSINTCLI.cmd_stats: fetches the stats of the requested type, prints
the overview block or the table, optionally exports the payload as JSON;
error mapping as in every command. -/
def cmd_stats (net : Request → HttpOutcome) (args : StatsArgs) (cwd : String) : CmdOut :=
  match (get_stats net args.type).1 with
  | .error e => ⟨1, [], [errLine e], []⟩
  | .ok data =>
    let body : Except PyExc (List String) :=
      if args.type == "overview" then statsOverviewLines data
      else statsTableLines args.type data
    match body with
    | .error e => ⟨1, [], [errLine e], []⟩
    | .ok ls =>
      if args.exportFlag then
        let dir := resolveDir args.output_dir cwd
        let r := export_json data dir ("stats_" ++ args.type ++ ".json") true
        match r.1 with
        | .ok file => ⟨0, ls ++ ["\n✓ Exported to: " ++ file], [], r.2⟩
        | .error e => ⟨1, ls, [errLine e], r.2⟩
      else ⟨0, ls, [], []⟩

/-- Integer rendering under the d format spec of width w: an int is
padded, a bool formats as its integer value, anything else raises the
unknown-format-code ValueError. -/
def fmtIntPad (w : Nat) (v : JValue) : Except PyExc String :=
  match v with
  | .num n => .ok (padLeft w (intStr n))
  | .bool b => .ok (padLeft w (if b then "1" else "0"))
  | _ => .error (.valueError "Unknown format code d")

/-- One row of the dates table: the date, the target count right-aligned
to seven and the request count right-aligned to eight. -/
def datesRowLine (di : JValue) : Except PyExc String :=
  match di with
  | .obj kvs => do
    let ts ← fmtIntPad 7 ((List.lookup "target_count" kvs).getD (.num 0))
    let rs ← fmtIntPad 8 ((List.lookup "request_count" kvs).getD (.num 0))
    .ok (pyStr ((List.lookup "date" kvs).getD (.str "N/A")) ++ " | " ++ ts ++ " | " ++ rs)
  | _ => .error (.typeError ("object has no attribute " ++ "\x27get\x27"))

/-- The three heading lines of the dates table: the count line, the
column line, and a rule of forty dashes. -/
def datesHeader (xs : List JValue) : List String :=
  ["\n=== Available Dates (" ++ intStr xs.length ++ " total) ===",
   "Date       | Targets | Requests",
   String.mk (List.replicate 40 '-')]

/-- DDoSINTCLI.cmd_dates: fetches the available dates; an empty payload
prints the no-dates message with exit code 0; otherwise prints the table
heading, the rows sliced to the limit when the limit is truthy, and the
trailing more-dates notice exactly when a truthy limit is exceeded by the
count; error mapping as in every command. -/
def cmd_dates (net : Request → HttpOutcome) (limit : Option Int) : CmdOut :=
  match (get_available_dates net).1 with
  | .error e => ⟨1, [], [errLine e], []⟩
  | .ok dates =>
    if !truthy dates then ⟨0, ["No dates with data available"], [], []⟩
    else
      match dates with
      | .arr xs =>
        let hdr := datesHeader xs
        let shown :=
          match limit with
          | some n => if n != 0 then pySlice xs n else xs
          | none => xs
        match shown.mapM datesRowLine with
        | .error e => ⟨1, [], [errLine e], []⟩
        | .ok rows =>
          let notice :=
            match limit with
            | some n =>
              if n != 0 && (n : Int) < (xs.length : Int) then
                ["\n... and " ++ intStr ((xs.length : Int) - n) ++ " more dates"]
              else []
            | none => []
          ⟨0, hdr ++ rows ++ notice, [], []⟩
      | _ => ⟨1, [], [errLine (.typeError "object is not subscriptable")], []⟩

/-! Concrete fixtures: mock networks used to instantiate the theorems on
explicit inputs. -/

/-- Does the client result carry the API-level error (the ValueError whose
message carries the API Error prefix). -/
def isAPIErrorRes (r : Except PyExc JValue) : Bool :=
  match r with
  | .error (.valueError m) => isPrefixB "API Error: ".data m.data
  | _ => false

/-- A network on which every request fails at the transport level. -/
def mockNetDown : Request → HttpOutcome := fun _ => .netFail "Connection refused"

/-- A network answering every request with status 200 and a body whose
targets list is empty. -/
def mockNetNoTargets : Request → HttpOutcome := fun _ =>
  .response 200 (.ok (.obj [("targets", .arr []), ("stats", .obj [])]))

/-- A network answering every request with status 200 and a body carrying
a top-level error field. -/
def mockNetApiError : Request → HttpOutcome := fun _ =>
  .response 200 (.ok (.obj [("error", .str "not found")]))

/-- A network answering every request with status 404 and a body carrying
a top-level error field. -/
def mockNetStatus404 : Request → HttpOutcome := fun _ =>
  .response 404 (.ok (.obj [("error", .str "not found")]))

/-- One date summary row as the dates endpoint serves it. -/
def mockDateRow (d : String) (t r : Int) : JValue :=
  .obj [("date", .str d), ("target_count", .num t), ("request_count", .num r)]

/-- The five date summaries of the dates fixture. -/
def mockDates5 : List JValue :=
  [mockDateRow "2024-01-01" 5 10, mockDateRow "2024-01-02" 6 11,
   mockDateRow "2024-01-03" 7 12, mockDateRow "2024-01-04" 8 13,
   mockDateRow "2024-01-05" 9 14]

/-- A network answering every request with the five-date list. -/
def mockNetDates5 : Request → HttpOutcome := fun _ => .response 200 (.ok (.arr mockDates5))

/-- A network answering every request with a one-date list. -/
def mockNetDates1 : Request → HttpOutcome := fun _ =>
  .response 200 (.ok (.arr [mockDateRow "2024-01-01" 5 10]))

/-! Helper lemmas. -/

/-- A successful association lookup means some pair carries the key. -/
theorem lookup_any_eq_true {β : Type} (k : String) (v : β) :
    ∀ l : List (String × β), List.lookup k l = some v →
      l.any (fun kv => kv.1 == k) = true := by
  intro l
  induction l with
  | nil => intro h; simp [List.lookup] at h
  | cons a as ih =>
    obtain ⟨a1, a2⟩ := a
    intro h
    rw [List.lookup] at h
    by_cases hk : k = a1
    · simp [hk]
    · have hb : (k == a1) = false := by simp [hk]
      rw [hb] at h
      simp only [List.any_cons]
      rw [ih h]
      simp

/-! Claim C1. The claim reads: for every client operation and every
response whose parsed JSON body is a mapping containing a top-level key
error, the operation fails with an APIError carrying the server-supplied
message, regardless of the HTTP status code of the response. The code
contradicts the regardless-of-status part: raise_for_status runs before
the body is parsed, so a 4xx or 5xx response raises the transport-level
RequestException and the error key is never examined. -/

/-- Counterexample to claim C1 as stated: a 404 response whose body is the
mapping with error equal to not found makes the request fail with the
transport RequestException, not with the API-level error. -/
theorem request_error_key_ignored_on_http_error_cex :
    (_request mockNetStatus404 "targets_by_date.php" [("date", "2024-01-15")]).1 =
      .error (.requestException "Failed to connect to API: 404 Client Error") ∧
    isAPIErrorRes (_request mockNetStatus404 "targets_by_date.php" [("date", "2024-01-15")]).1
      = false := by
  exact ⟨rfl, rfl⟩

/-- Claim C1 amended: for every client operation and every response whose
HTTP status is below 400 and whose parsed body is a mapping containing the
key error, the operation fails with the API-level ValueError carrying the
server-supplied message; on a 4xx or 5xx status the operation fails with a
transport error before the body is examined. -/
theorem request_error_key_api_error (net : Request → HttpOutcome) (endpoint : String)
    (params : List (String × String)) (status : Nat) (kvs : List (String × JValue)) (v : JValue)
    (hnet : net ⟨endpoint, params⟩ = .response status (.ok (.obj kvs)))
    (hst : status < 400)
    (hkey : List.lookup "error" kvs = some v) :
    (_request net endpoint params).1 = .error (.valueError ("API Error: " ++ pyStr v)) := by
  have hcond : ¬(400 ≤ status ∧ status < 600) := by omega
  have hany := lookup_any_eq_true "error" v kvs hkey
  simp only [_request, hnet, hcond, if_false, containsErrorKey, hany, hkey]
  rfl

/-- Witness for the amended claim C1 at a concrete 200 response carrying
the error field not found. -/
theorem request_error_key_api_error_witness :
    (_request mockNetApiError "stats.php" [("type", "overview")]).1 =
      .error (.valueError "API Error: not found") := by
  exact request_error_key_api_error mockNetApiError "stats.php" [("type", "overview")]
    200 [("error", .str "not found")] (.str "not found") rfl (by omega) rfl

/-! Claim C3: get_targets_by_date issues a network request exactly when
the date matches the anchored date regex (under Python re.match semantics,
where the dollar anchor also accepts one trailing newline), and a
non-matching date fails with the validation ValueError with no request
issued. -/

/-- Claim C3: the date validation gates the network call: a non-matching
date string yields the validation ValueError and an empty request trace,
a matching date string issues exactly the one targets_by_date request,
and a request is issued precisely on a regex match. -/
theorem get_targets_by_date_validates (net : Request → HttpOutcome) (date : String) :
    (reDateMatch date = false →
      get_targets_by_date net date =
        (.error (.valueError "Date must be in YYYY-MM-DD format"), [])) ∧
    (reDateMatch date = true →
      (get_targets_by_date net date).2 = [⟨"targets_by_date.php", [("date", date)]⟩]) ∧
    ((get_targets_by_date net date).2 ≠ [] ↔ reDateMatch date = true) := by
  refine ⟨fun hf => by simp [get_targets_by_date, hf], fun ht => by
    simp [get_targets_by_date, ht, _request], ?_⟩
  by_cases h : reDateMatch date = true
  · simp [get_targets_by_date, h, _request]
  · have hf : reDateMatch date = false := by simpa using h
    simp [get_targets_by_date, hf]

/-- Witness for claim C3: a wrongly formatted date (day before year)
fails with the validation error and an empty trace, and a well formed
date issues exactly one request. -/
theorem get_targets_by_date_validates_witness :
    get_targets_by_date mockNetDown "15-01-2024" =
      (.error (.valueError "Date must be in YYYY-MM-DD format"), []) ∧
    (get_targets_by_date mockNetDown "2024-01-15").2 =
      [⟨"targets_by_date.php", [("date", "2024-01-15")]⟩] := by
  exact ⟨(get_targets_by_date_validates mockNetDown "15-01-2024").1 (by decide),
    (get_targets_by_date_validates mockNetDown "2024-01-15").2.1 (by decide)⟩

/-! Claim C10: the date validation checks only the digit shape, not
calendar validity. -/

/-- Claim C10: the string 9999-99-99, which is not a calendar date (no
month 99 and no day 99 exist), passes the shape-only validation and a
network request is issued for it. -/
theorem date_validation_shape_only :
    reDateMatch "9999-99-99" = true ∧
    (get_targets_by_date mockNetDown "9999-99-99").2 =
      [⟨"targets_by_date.php", [("date", "9999-99-99")]⟩] := by
  exact ⟨rfl, rfl⟩

/-! Claim C2. The claim reads: every failure returns exit code 1; a
validation error prints with the Error prefix, while every other failure
(transport, protocol, API-level) prints with the Unexpected error prefix.
The code contradicts the second half: the API-level failure and the
invalid-JSON (protocol) failure are raised as ValueError, so the except
ValueError clause catches them and prints the Error prefix; only failures
outside the ValueError family (the transport RequestException and runtime
errors) reach the generic clause and its Unexpected error prefix. -/

/-- Counterexample to claim C2 as stated: an API-level failure (the mock
body carrying error equal to not found under status 200) makes extract
print the Error prefix on the error stream, not the Unexpected error
prefix the claim requires for API-level failures. Exit code is 1. -/
theorem cmd_error_prefix_api_error_cex :
    cmd_extract mockNetApiError ⟨"2024-01-15", "json", none, "targets"⟩ "/cwd" "2024-02-02" =
      ⟨1, ["Fetching targets for date: 2024-01-15"], ["Error: API Error: not found"], []⟩ ∧
    (cmd_extract mockNetApiError ⟨"2024-01-15", "json", none, "targets"⟩ "/cwd" "2024-02-02").err ≠
      ["Unexpected error: API Error: not found"] := by
  exact ⟨rfl, by decide⟩

/-- Claim C2 amended: for every command, a failure of the underlying
client operation returns exit code 1 and prints one line on the error
stream; failures raised as ValueError (the validation, API-level and
invalid-JSON errors) print with the Error prefix, and all other failures
(transport, runtime) print with the Unexpected error prefix. -/
theorem cmd_error_prefix_mapping (net : Request → HttpOutcome) (e : PyExc)
    (ea : ExtractArgs) (sa : SearchArgs) (ta : StatsArgs) (dl : Option Int)
    (cwd today : String) :
    ((get_targets_by_date net ea.date).1 = .error e →
      cmd_extract net ea cwd today =
        ⟨1, ["Fetching targets for date: " ++ ea.date], [errLine e], []⟩) ∧
    ((search_host net sa.host).1 = .error e →
      cmd_search net sa cwd = ⟨1, ["Searching for host: " ++ sa.host], [errLine e], []⟩) ∧
    ((get_stats net ta.type).1 = .error e →
      cmd_stats net ta cwd = ⟨1, [], [errLine e], []⟩) ∧
    ((get_available_dates net).1 = .error e →
      cmd_dates net dl = ⟨1, [], [errLine e], []⟩) ∧
    (e.isValueError = true → errLine e = "Error: " ++ e.msg) ∧
    (e.isValueError = false → errLine e = "Unexpected error: " ++ e.msg) := by
  refine ⟨fun h => by simp [cmd_extract, h], fun h => by simp [cmd_search, h],
    fun h => by simp [cmd_stats, h], fun h => by simp [cmd_dates, h], ?_, ?_⟩ <;>
    cases e <;> simp [errLine, PyExc.isValueError, PyExc.msg]

/-- Witness for the amended claim C2: on a network that is down, extract
and dates print the Unexpected error prefix with the transport message and
return exit code 1. -/
theorem cmd_error_prefix_mapping_witness :
    cmd_extract mockNetDown ⟨"2024-01-15", "json", none, "targets"⟩ "/cwd" "2024-02-02" =
      ⟨1, ["Fetching targets for date: 2024-01-15"],
        ["Unexpected error: Failed to connect to API: Connection refused"], []⟩ ∧
    cmd_dates mockNetDown none =
      ⟨1, [], ["Unexpected error: Failed to connect to API: Connection refused"], []⟩ := by
  refine ⟨?_, ?_⟩
  · exact (cmd_error_prefix_mapping mockNetDown
      (.requestException "Failed to connect to API: Connection refused")
      ⟨"2024-01-15", "json", none, "targets"⟩ ⟨"h", none, false, "json", none⟩
      ⟨"overview", false, none⟩ none "/cwd" "2024-02-02").1 rfl
  · exact (cmd_error_prefix_mapping mockNetDown
      (.requestException "Failed to connect to API: Connection refused")
      ⟨"2024-01-15", "json", none, "targets"⟩ ⟨"h", none, false, "json", none⟩
      ⟨"overview", false, none⟩ none "/cwd" "2024-02-02").2.2.2.1 rfl

/-! Claim C6: a response with an empty (or absent) targets sequence makes
extract print the no-targets message, return exit code 1 without raising,
and write no file. -/

/-- Claim C6: when the fetch succeeds with a mapping whose targets field
is absent or the empty list, extract prints the fetching line and the
no-targets message, exits with code 1, prints nothing on the error stream,
and performs no filesystem effect. -/
theorem cmd_extract_no_targets (net : Request → HttpOutcome) (args : ExtractArgs)
    (cwd today : String) (kvs : List (String × JValue))
    (hok : (get_targets_by_date net args.date).1 = .ok (.obj kvs))
    (hT : List.lookup "targets" kvs = none ∨ List.lookup "targets" kvs = some (.arr [])) :
    cmd_extract net args cwd today =
      ⟨1, ["Fetching targets for date: " ++ args.date,
           "No targets found for date " ++ args.date], [], []⟩ := by
  rcases hT with h | h <;> simp [cmd_extract, hok, h, truthyOpt, truthy]

/-- Witness for claim C6 at the mock network returning an empty targets
list with a stats block. -/
theorem cmd_extract_no_targets_witness :
    cmd_extract mockNetNoTargets ⟨"2024-01-15", "json", none, "targets"⟩ "/cwd" "2024-02-02" =
      ⟨1, ["Fetching targets for date: 2024-01-15",
           "No targets found for date 2024-01-15"], [], []⟩ := by
  exact cmd_extract_no_targets mockNetNoTargets ⟨"2024-01-15", "json", none, "targets"⟩
    "/cwd" "2024-02-02" [("targets", .arr []), ("stats", .obj [])] rfl (Or.inr rfl)

/-! Claim C5: export_targets_by_date compares the format case
insensitively, and every format whose lowercasing is neither json nor csv
fails with a ValidationError naming the unsupported value. -/

/-- Claim C5: a format string lowercasing to json or csv behaves exactly
as its lowercase form, and any other format string fails with the
ValueError whose message names the unsupported value. -/
theorem export_targets_by_date_format_case (api_data : List (String × JValue))
    (dir prefixArg today fmt : String) :
    ((pyLower fmt = "json" ∨ pyLower fmt = "csv") →
      export_targets_by_date api_data dir fmt prefixArg today =
        export_targets_by_date api_data dir (pyLower fmt) prefixArg today) ∧
    (pyLower fmt ≠ "json" → pyLower fmt ≠ "csv" →
      (export_targets_by_date api_data dir fmt prefixArg today).1 =
        .error (.valueError
          ("Unsupported format: " ++ fmt ++ ". Use \x27json\x27 or \x27csv\x27"))) := by
  constructor
  · intro h
    rcases h with h | h <;>
      simp [export_targets_by_date, h, show pyLower "json" = "json" from rfl,
        show pyLower "csv" = "csv" from rfl, show pyLower "csv" ≠ "json" by decide]
  · intro h1 h2
    simp [export_targets_by_date, h1, h2]

/-- Witness for claim C5: the mixed-case CSV format behaves as csv on a
concrete payload, and the xml format fails naming xml. -/
theorem export_targets_by_date_format_case_witness :
    export_targets_by_date [("date", .str "2024-01-15"), ("targets", .arr [.obj [("a", .num 1)]])]
        "out" "CSV" "targets" "2024-02-02" =
      export_targets_by_date [("date", .str "2024-01-15"), ("targets", .arr [.obj [("a", .num 1)]])]
        "out" "csv" "targets" "2024-02-02" ∧
    (export_targets_by_date [("date", .str "2024-01-15"), ("targets", .arr [.obj [("a", .num 1)]])]
        "out" "xml" "targets" "2024-02-02").1 =
      .error (.valueError ("Unsupported format: xml. Use \x27json\x27 or \x27csv\x27")) := by
  constructor
  · exact (export_targets_by_date_format_case
      [("date", .str "2024-01-15"), ("targets", .arr [.obj [("a", .num 1)]])]
      "out" "targets" "2024-02-02" "CSV").1 (Or.inr rfl)
  · exact (export_targets_by_date_format_case
      [("date", .str "2024-01-15"), ("targets", .arr [.obj [("a", .num 1)]])]
      "out" "targets" "2024-02-02" "xml").2 (by decide) (by decide)

/-! Claim C9: export_csv on the empty targets list fails with the
ValidationError before any filesystem effect. -/

/-- Claim C9: on the empty targets list export_csv fails with the
no-targets ValueError and its filesystem trace is empty: no directory is
created and no file is written, because the emptiness check precedes the
mkdir and the write. -/
theorem export_csv_empty_validation (dir file : String) :
    export_csv (.arr []) dir file = (.error (.valueError "No targets to export"), []) := by
  rfl

/-- A mapM over Except that succeeds returns one output per input. -/
theorem exceptMapM_ok_length {α β ε : Type} (f : α → Except ε β) :
    ∀ (l : List α) (rs : List β), l.mapM f = .ok rs → rs.length = l.length := by
  intro l
  induction l with
  | nil =>
    intro rs h
    simp [List.mapM, List.mapM.loop, pure, Except.pure] at h
    simp [← h]
  | cons a l ih =>
    intro rs h
    rw [List.mapM_cons] at h
    cases hfa : f a with
    | error e => rw [hfa] at h; simp [bind, Except.bind] at h
    | ok b =>
      rw [hfa] at h
      cases hml : l.mapM f with
      | error e => rw [hml] at h; simp [bind, Except.bind] at h
      | ok bs =>
        rw [hml] at h
        simp [bind, Except.bind, pure, Except.pure] at h
        rw [← h]
        simp [ih bs hml]

/-! Claim C7. The claim reads: for every nonempty list of available dates
and every limit value N, the dates command prints a table truncated to N
rows followed by a more notice exactly when the list is longer than N, and
returns exit code 0. The code contradicts this at N equal to zero: a zero
limit is falsy in Python, so the slice is skipped (every row prints) and
the notice condition fails, where the claim requires zero rows plus a
notice. For every positive N the claim holds. -/

/-- Counterexample to claim C7 as stated: with one available date and a
limit of zero, dates prints the full single-row table and no notice,
whereas the claim requires zero rows followed by a notice announcing one
more date. Exit code is 0 either way. -/
theorem cmd_dates_limit_zero_cex :
    cmd_dates mockNetDates1 (some 0) =
      ⟨0, ["\n=== Available Dates (1 total) ===",
           "Date       | Targets | Requests",
           "----------------------------------------",
           "2024-01-01 |       5 |       10"], [], []⟩ ∧
    (cmd_dates mockNetDates1 (some 0)).out ≠
      ["\n=== Available Dates (1 total) ===",
       "Date       | Targets | Requests",
       "----------------------------------------",
       "\n... and 1 more dates"] := by
  exact ⟨rfl, by decide⟩

/-- Claim C7 amended: for every nonempty list of available dates and every
positive limit N, the dates command prints the three heading lines, then
the table truncated to N rows (min of N and the list length), then the
more notice exactly when the list is longer than N with the count of
omitted rows, and returns exit code 0. -/
theorem cmd_dates_limit_pos (net : Request → HttpOutcome) (xs : List JValue) (n : Int)
    (rows : List String)
    (hok : (get_available_dates net).1 = .ok (.arr xs))
    (hne : xs ≠ []) (hpos : 1 ≤ n)
    (hrows : (xs.take n.toNat).mapM datesRowLine = .ok rows) :
    cmd_dates net (some n) =
      ⟨0, datesHeader xs ++ rows ++
        (if (n : Int) < (xs.length : Int) then
          ["\n... and " ++ intStr ((xs.length : Int) - n) ++ " more dates"]
        else []), [], []⟩ ∧
    rows.length = min n.toNat xs.length := by
  have hn0 : (n != 0) = true := by
    simp only [bne_iff_ne]
    omega
  have hsl : pySlice xs n = xs.take n.toNat := by
    simp [pySlice, show (0 : Int) ≤ n by omega]
  constructor
  · simp [cmd_dates, hok, truthy, hne, hn0, hsl, datesHeader,
      show List.mapM.loop datesRowLine (List.take n.toNat xs) [] = Except.ok rows from hrows]
  · rw [exceptMapM_ok_length datesRowLine _ rows hrows]
    simp [List.length_take, Nat.min_comm]

/-- Witness for the amended claim C7: five available dates with limit two
print exactly two rows and the notice announcing three more dates. -/
theorem cmd_dates_limit_pos_witness :
    cmd_dates mockNetDates5 (some 2) =
      ⟨0, ["\n=== Available Dates (5 total) ===",
           "Date       | Targets | Requests",
           "----------------------------------------",
           "2024-01-01 |       5 |       10",
           "2024-01-02 |       6 |       11",
           "\n... and 3 more dates"], [], []⟩ ∧
    (2 : Int) ≥ 1 ∧ mockDates5 ≠ [] := by
  refine ⟨?_, by omega, by simp [mockDates5]⟩
  have h := (cmd_dates_limit_pos mockNetDates5 mockDates5 2
    ["2024-01-01 |       5 |       10", "2024-01-02 |       6 |       11"]
    rfl (by simp [mockDates5]) (by omega) rfl).1
  exact h.trans (by rfl)

/-- Character list comparison is asymmetric-total: one direction is
always false. -/
theorem strLtB_false_or : ∀ a b : List Char, strLtB a b = false ∨ strLtB b a = false := by
  intro a
  induction a with
  | nil =>
    intro b
    cases b with
    | nil => left; rfl
    | cons y bs => right; rfl
  | cons x as ih =>
    intro b
    cases b with
    | nil => left; rfl
    | cons y bs =>
      rw [strLtB, strLtB]
      rcases Nat.lt_trichotomy x.toNat y.toNat with h | h | h
      · right
        rw [if_neg (by omega), if_neg (by omega)]
      · rw [if_neg (by omega), if_pos h, if_neg (by omega), if_pos h.symm]
        exact ih bs
      · left
        rw [if_neg (by omega), if_neg (by omega)]

/-- Negated character list comparison is transitive. -/
theorem strLtB_neg_trans : ∀ (a b c : List Char),
    strLtB b a = false → strLtB c b = false → strLtB c a = false := by
  intro a
  induction a with
  | nil =>
    intro b c h1 h2
    cases c with
    | nil => rfl
    | cons z cs => rfl
  | cons x as ih =>
    intro b c h1 h2
    cases b with
    | nil => exact absurd h1 (by rw [strLtB]; simp)
    | cons y bs =>
      cases c with
      | nil => exact absurd h2 (by rw [strLtB]; simp)
      | cons z cs =>
        rw [strLtB] at h1 h2 ⊢
        by_cases hyx : y.toNat < x.toNat
        · rw [if_pos hyx] at h1; exact absurd h1 (by simp)
        · rw [if_neg hyx] at h1
          by_cases hzy : z.toNat < y.toNat
          · rw [if_pos hzy] at h2; exact absurd h2 (by simp)
          · rw [if_neg hzy] at h2
            rw [if_neg (by omega)]
            by_cases hzx : z.toNat = x.toNat
            · rw [if_pos hzx]
              have hyx2 : y.toNat = x.toNat := by omega
              have hzy2 : z.toNat = y.toNat := by omega
              rw [if_pos hyx2] at h1
              rw [if_pos hzy2] at h2
              exact ih bs cs h1 h2
            · rw [if_neg hzx]

/-- Totality of the string order used by the sort. -/
theorem strLeB_total (a b : String) : strLeB a b = true ∨ strLeB b a = true := by
  rw [strLeB, strLeB]
  rcases strLtB_false_or a.data b.data with h | h
  · right; rw [h]; rfl
  · left; rw [h]; rfl

/-- Transitivity of the string order used by the sort. -/
theorem strLeB_trans (a b c : String) (h1 : strLeB a b = true) (h2 : strLeB b c = true) :
    strLeB a c = true := by
  rw [strLeB] at h1 h2 ⊢
  rw [Bool.not_eq_true'] at h1 h2
  rw [strLtB_neg_trans a.data b.data c.data h1 h2]
  rfl

/-- Membership through ordered insertion. -/
theorem mem_insertStr (x : String) :
    ∀ (l : List String) (z : String), z ∈ insertStr x l ↔ z = x ∨ z ∈ l := by
  intro l
  induction l with
  | nil => intro z; simp [insertStr]
  | cons y ys ih =>
    intro z
    rw [insertStr]
    by_cases h : strLeB x y = true
    · rw [if_pos h]
      simp [List.mem_cons]
    · rw [if_neg h]
      simp only [List.mem_cons, ih]
      tauto

/-- Ordered insertion permutes to consing. -/
theorem perm_insertStr (x : String) :
    ∀ l : List String, List.Perm (insertStr x l) (x :: l) := by
  intro l
  induction l with
  | nil => simp [insertStr]
  | cons y ys ih =>
    rw [insertStr]
    by_cases h : strLeB x y = true
    · rw [if_pos h]
    · rw [if_neg h]
      exact (ih.cons y).trans (List.Perm.swap x y ys)

/-- Ordered insertion preserves pairwise ordering. -/
theorem pairwise_insertStr (x : String) :
    ∀ l : List String, List.Pairwise (fun a b => strLeB a b = true) l →
      List.Pairwise (fun a b => strLeB a b = true) (insertStr x l) := by
  intro l
  induction l with
  | nil => intro _; simp [insertStr]
  | cons y ys ih =>
    intro hp
    rw [List.pairwise_cons] at hp
    obtain ⟨hy, hys⟩ := hp
    rw [insertStr]
    by_cases hxy : strLeB x y = true
    · rw [if_pos hxy, List.pairwise_cons]
      refine ⟨?_, List.pairwise_cons.mpr ⟨hy, hys⟩⟩
      intro z hz
      rcases List.mem_cons.mp hz with rfl | hz2
      · exact hxy
      · exact strLeB_trans x y z hxy (hy z hz2)
    · have hyx : strLeB y x = true := by
        rcases strLeB_total x y with h | h
        · exact absurd h hxy
        · exact h
      rw [if_neg hxy, List.pairwise_cons]
      refine ⟨?_, ih hys⟩
      intro z hz
      rcases (mem_insertStr x ys z).mp hz with rfl | hz2
      · exact hyx
      · exact hy z hz2

/-- The sort permutes its input. -/
theorem sortStrs_perm : ∀ l : List String, List.Perm (sortStrs l) l := by
  intro l
  induction l with
  | nil => simp [sortStrs]
  | cons x xs ih =>
    rw [sortStrs]
    exact (perm_insertStr x (sortStrs xs)).trans (ih.cons x)

/-- The sort output is pairwise ascending. -/
theorem sortStrs_pairwise : ∀ l : List String,
    List.Pairwise (fun a b => strLeB a b = true) (sortStrs l) := by
  intro l
  induction l with
  | nil => simp [sortStrs]
  | cons x xs ih =>
    rw [sortStrs]
    exact pairwise_insertStr x (sortStrs xs) ih

/-- Viewing an encoded list of row mappings as rows is the identity. -/
theorem asRows_map_obj : ∀ rows : List (List (String × JValue)),
    asRows (.arr (rows.map JValue.obj)) = some rows := by
  intro rows
  induction rows with
  | nil => rfl
  | cons r rs ih =>
    simp only [asRows, List.map_cons, asRowsList] at ih ⊢
    simp [ih]

/-! Claim C4: export_csv writes a CSV whose header is the sorted union of
all row keys, rows render missing keys as empty, and the two-row example
produces header a,b with rows 1-comma and comma-2. -/

/-- Claim C4: on a nonempty list of row mappings, export_csv creates the
parent directory and writes the CSV text built from the fieldnames and the
rows, where the fieldnames are exactly the union of all row keys (in the
ascending string order, pairwise sorted and duplicate free), and each data
row renders a key missing from the row as the empty string. -/
theorem export_csv_header_union_sorted (rows : List (List (String × JValue)))
    (dir file : String) (hne : rows ≠ []) :
    export_csv (.arr (rows.map JValue.obj)) dir file =
      (.ok (joinPath dir file),
        [.mkdir dir, .write dir file (csvContent (csvFieldnames rows) rows)]) ∧
    List.Pairwise (fun a b => strLeB a b = true) (csvFieldnames rows) ∧
    (∀ k, k ∈ csvFieldnames rows ↔ ∃ r ∈ rows, k ∈ rowKeys r) ∧
    (csvFieldnames rows).Nodup ∧
    (∀ r fieldnames, csvRow fieldnames r =
      String.intercalate "," (fieldnames.map (fun k =>
        match List.lookup k r with
        | some v => csvCell v
        | none => ""))) := by
  refine ⟨?_, sortStrs_pairwise _, ?_, ?_, fun _ _ => rfl⟩
  · have hmap : rows.map JValue.obj ≠ [] := by
      intro h
      exact hne (List.map_eq_nil_iff.mp h)
    simp [export_csv, truthy, hmap, asRows_map_obj rows]
  · intro k
    rw [csvFieldnames, (sortStrs_perm _).mem_iff, List.mem_dedup, List.mem_flatten]
    constructor
    · rintro ⟨l, hl, hk⟩
      obtain ⟨r, hr, rfl⟩ := List.mem_map.mp hl
      exact ⟨r, hr, hk⟩
    · rintro ⟨r, hr, hk⟩
      exact ⟨rowKeys r, List.mem_map.mpr ⟨r, hr, rfl⟩, hk⟩
  · rw [csvFieldnames]
    exact (sortStrs_perm _).nodup_iff.mpr (List.nodup_dedup _)

/-- Witness for claim C4 at the two-row example of the claim: the header
is a,b and the rows are 1-comma and comma-2, each line terminated by the
excel CRLF. -/
theorem export_csv_header_union_sorted_witness :
    export_csv (.arr [.obj [("a", .num 1)], .obj [("b", .num 2)]]) "out" "t.csv" =
      (.ok "out/t.csv",
        [.mkdir "out", .write "out" "t.csv" "a,b\r\n1,\r\n,2\r\n"]) ∧
    ([[("a", JValue.num 1)], [("b", JValue.num 2)]] : List (List (String × JValue))) ≠ [] := by
  refine ⟨?_, by simp⟩
  have h := (export_csv_header_union_sorted [[("a", JValue.num 1)], [("b", JValue.num 2)]]
    "out" "t.csv" (by simp)).1
  exact h.trans (by rfl)

/-! Round-trip support lemmas for the JSON serializer and parser. -/

/-- A digit differs from any non-digit character. -/
theorem digit_ne (c d : Char) (h : isDigitCh c = true) (hd : isDigitCh d = false) : c ≠ d := by
  intro he
  rw [he, hd] at h
  cases h

/-- Digits are not JSON whitespace. -/
theorem isWs_false_of_digit (c : Char) (h : isDigitCh c = true) : isWs c = false := by
  have h1 := digit_ne c ' ' h (by decide)
  have h2 := digit_ne c '\n' h (by decide)
  have h3 := digit_ne c '\t' h (by decide)
  have h4 := digit_ne c '\r' h (by decide)
  simp [isWs, h1, h2, h3, h4]

/-- Skipping whitespace stops at a non-whitespace head. -/
theorem skipWs_cons_not (c : Char) (cs : List Char) (h : isWs c = false) :
    skipWs (c :: cs) = c :: cs := by
  simp [skipWs, h]

/-- Skipping whitespace passes over a whitespace prefix. -/
theorem skipWs_append_ws : ∀ (W : List Char), (∀ c ∈ W, isWs c = true) →
    ∀ t : List Char, skipWs (W ++ t) = skipWs t := by
  intro W
  induction W with
  | nil => intro _ t; rfl
  | cons c cs ih =>
    intro hW t
    have hc := hW c (List.mem_cons_self c cs)
    simp only [List.cons_append, skipWs, hc, if_pos]
    exact ih (fun d hd => hW d (List.mem_cons_of_mem c hd)) t

/-- Indentation is whitespace. -/
theorem jsonInd_ws (lvl : Nat) : ∀ c ∈ jsonInd lvl, isWs c = true := by
  intro c hc
  rw [jsonInd] at hc
  rw [List.eq_of_mem_replicate hc]
  rfl

/-- The rendered digits of a natural number: nonempty and all digits. -/
theorem renderNatChars_spec : ∀ fuel n, n < fuel →
    renderNatChars fuel n ≠ [] ∧ ∀ c ∈ renderNatChars fuel n, isDigitCh c = true := by
  intro fuel
  induction fuel with
  | zero => intro n h; omega
  | succ f ih =>
    intro n h
    rw [renderNatChars]
    by_cases h10 : n < 10
    · rw [if_pos h10]
      refine ⟨by simp, ?_⟩
      intro c hc
      rw [List.mem_singleton.mp hc]
      exact (by decide : ∀ m, m < 10 → isDigitCh (Nat.digitChar m) = true) n h10
    · rw [if_neg h10]
      have hdiv : n / 10 < f := by omega
      obtain ⟨hne, hall⟩ := ih (n / 10) hdiv
      refine ⟨by simp, ?_⟩
      intro c hc
      rcases List.mem_append.mp hc with h1 | h1
      · exact hall c h1
      · rw [List.mem_singleton.mp h1]
        exact (by decide : ∀ m, m < 10 → isDigitCh (Nat.digitChar m) = true) (n % 10) (by omega)

/-- The rendering of a natural number starts with a digit. -/
theorem renderNat_head (n : Nat) : ∃ d ds, renderNat n = d :: ds ∧ isDigitCh d = true := by
  obtain ⟨hne, hall⟩ := renderNatChars_spec (n + 1) n (by omega)
  rcases hrn : renderNatChars (n + 1) n with _ | ⟨d, ds⟩
  · exact absurd hrn hne
  · refine ⟨d, ds, by rw [renderNat, hrn], ?_⟩
    exact hall d (by rw [hrn]; exact List.mem_cons_self d ds)

/-- Folding the decimal digits recovers the number. -/
theorem foldl_renderNatChars : ∀ fuel n a, n < fuel →
    (renderNatChars fuel n).foldl (fun acc c => 10 * acc + (c.toNat - 48)) a =
      a * 10 ^ (renderNatChars fuel n).length + n := by
  intro fuel
  induction fuel with
  | zero => intro n a h; omega
  | succ f ih =>
    intro n a h
    rw [renderNatChars]
    by_cases h10 : n < 10
    · rw [if_pos h10]
      have hd : (Nat.digitChar n).toNat = 48 + n :=
        (by decide : ∀ m, m < 10 → (Nat.digitChar m).toNat = 48 + m) n h10
      simp [List.foldl, hd]
      omega
    · rw [if_neg h10]
      have hdiv : n / 10 < f := by omega
      have hd : (Nat.digitChar (n % 10)).toNat = 48 + n % 10 :=
        (by decide : ∀ m, m < 10 → (Nat.digitChar m).toNat = 48 + m) (n % 10) (by omega)
      rw [List.foldl_append, List.length_append, ih (n / 10) a hdiv]
      simp only [List.foldl, List.length_singleton, hd]
      have hm : 10 * (n / 10) + n % 10 = n := Nat.div_add_mod n 10
      calc 10 * (a * 10 ^ (renderNatChars f (n / 10)).length + n / 10) + (48 + n % 10 - 48)
          = (a * 10 ^ (renderNatChars f (n / 10)).length) * 10 +
              (10 * (n / 10) + n % 10) := by omega
        _ = a * 10 ^ ((renderNatChars f (n / 10)).length + 1) + n := by
            rw [hm, pow_succ]; ring

/-- Splitting takeWhile and dropWhile over digits followed by a non-digit
continuation. -/
theorem takeWhile_append_digits :
    ∀ (l rest : List Char), (∀ c ∈ l, isDigitCh c = true) → noDigitHead rest = true →
      (l ++ rest).takeWhile isDigitCh = l ∧ (l ++ rest).dropWhile isDigitCh = rest := by
  intro l
  induction l with
  | nil =>
    intro rest _ hr
    cases rest with
    | nil => exact ⟨rfl, rfl⟩
    | cons c cs =>
      have hc : isDigitCh c = false := by
        simpa [noDigitHead] using hr
      constructor
      · simp [List.takeWhile_cons, hc]
      · simp [List.dropWhile_cons, hc]
  | cons d ds ih =>
    intro rest hl hr
    have hd := hl d (List.mem_cons_self d ds)
    obtain ⟨h1, h2⟩ := ih rest (fun c hc => hl c (List.mem_cons_of_mem d hc)) hr
    constructor
    · simp [List.takeWhile_cons, hd, h1]
    · simp [List.dropWhile_cons, hd, h2]

/-- The greedy number parser inverts the decimal rendering. -/
theorem parseNatNum_renderNat (n : Nat) (rest : List Char) (h : noDigitHead rest = true) :
    parseNatNum (renderNat n ++ rest) = some (n, rest) := by
  obtain ⟨hne, hall⟩ := renderNatChars_spec (n + 1) n (by omega)
  obtain ⟨htake, hdrop⟩ := takeWhile_append_digits (renderNat n) rest
    (by rw [renderNat]; exact hall) h
  obtain ⟨d, ds, hdn, _⟩ := renderNat_head n
  simp only [parseNatNum, htake, hdrop]
  have hv := foldl_renderNatChars (n + 1) n 0 (by omega)
  rw [← renderNat] at hv
  rw [hdn] at hv ⊢
  simp only [List.isEmpty_cons, Bool.false_eq_true, if_false]
  rw [hv]
  simp

/-- Reduction of the string parser at a non-special character. -/
theorem parseStrChars_other (c : Char) (T : List Char) (h1 : ¬c = '"') (h2 : ¬c = '\\')
    (h3 : ¬c.toNat < 32) :
    parseStrChars (c :: T) = (parseStrChars T).map (fun p => (c :: p.1, p.2)) := by
  rw [parseStrChars.eq_def]
  split
  · rename_i heq
    exact absurd heq (by simp)
  · rename_i heq
    injection heq with hc _
    exact absurd hc h1
  · rename_i heq
    injection heq with hc _
    exact absurd hc h2
  · rename_i heq
    injection heq with hc _
    exact absurd hc h2
  · rename_i heq
    injection heq with hc ht
    subst hc
    subst ht
    rw [if_neg h3]

/-- Reduction of the string parser at a two-character escape. -/
theorem parseStrChars_esc (e d : Char) (T : List Char) (he : ¬e = 'u')
    (hd : decodeEsc e = some d) :
    parseStrChars ('\\' :: e :: T) = (parseStrChars T).map (fun p => (d :: p.1, p.2)) := by
  rw [parseStrChars.eq_def]
  split
  · rename_i heq
    exact absurd heq (by simp)
  · rename_i heq
    injection heq with hc _
    exact absurd hc.symm (by decide)
  · rename_i heq
    injection heq with _ heq2
    injection heq2 with hu _
    exact absurd hu he
  · rename_i heq
    injection heq with _ heq2
    injection heq2 with he2 ht
    subst he2
    subst ht
    rw [if_neg he, hd]
  · rename_i hnesc heq
    injection heq with hc ht
    exact (hnesc e T hc.symm ht.symm).elim

/-- Reduction of the string parser at a u-escape with valid hex digits. -/
theorem parseStrChars_u (h1 h2 h3 h4 : Char) (a b c2 d : Nat) (T : List Char)
    (hv1 : hexVal h1 = some a) (hv2 : hexVal h2 = some b)
    (hv3 : hexVal h3 = some c2) (hv4 : hexVal h4 = some d) :
    parseStrChars ('\\' :: 'u' :: h1 :: h2 :: h3 :: h4 :: T) =
      (parseStrChars T).map
        (fun p => (Char.ofNat (4096 * a + 256 * b + 16 * c2 + d) :: p.1, p.2)) := by
  rw [parseStrChars.eq_def]
  split
  · rename_i heq
    exact absurd heq (by simp)
  · rename_i heq
    injection heq with hc _
    exact absurd hc.symm (by decide)
  · rename_i heq
    simp only [List.cons.injEq] at heq
    obtain ⟨-, -, rfl, rfl, rfl, rfl, rfl⟩ := heq
    rw [hv1, hv2, hv3, hv4]
  · rename_i hnu heq
    injection heq with _ heq2
    injection heq2 with hu ht
    exact (hnu h1 h2 h3 h4 T hu.symm ht.symm).elim
  · rename_i hq hnu hnesc heq
    injection heq with hc ht
    exact (hnu h1 h2 h3 h4 T hc.symm ht.symm).elim

/-- The string parser inverts the escaping of one string body. -/
theorem parseStr_escape : ∀ (s rest : List Char),
    parseStrChars (escapeChars s ++ '"' :: rest) = some (s, rest) := by
  intro s
  induction s with
  | nil =>
    intro rest
    rw [escapeChars, List.nil_append]
    rfl
  | cons c cs ih =>
    intro rest
    rw [escapeChars, List.append_assoc, escapeChar]
    by_cases h1 : c = '"'
    · subst h1
      rw [if_pos rfl]
      simp only [List.cons_append, List.nil_append]
      rw [parseStrChars_esc '"' '"' _ (by decide) (by decide), ih rest]
      rfl
    rw [if_neg h1]
    by_cases h2 : c = '\\'
    · subst h2
      rw [if_pos rfl]
      simp only [List.cons_append, List.nil_append]
      rw [parseStrChars_esc '\\' '\\' _ (by decide) (by decide), ih rest]
      rfl
    rw [if_neg h2]
    by_cases h3 : c = '\n'
    · subst h3
      rw [if_pos rfl]
      simp only [List.cons_append, List.nil_append]
      rw [parseStrChars_esc 'n' '\n' _ (by decide) (by decide), ih rest]
      rfl
    rw [if_neg h3]
    by_cases h4 : c = '\t'
    · subst h4
      rw [if_pos rfl]
      simp only [List.cons_append, List.nil_append]
      rw [parseStrChars_esc 't' '\t' _ (by decide) (by decide), ih rest]
      rfl
    rw [if_neg h4]
    by_cases h5 : c = '\r'
    · subst h5
      rw [if_pos rfl]
      simp only [List.cons_append, List.nil_append]
      rw [parseStrChars_esc 'r' '\r' _ (by decide) (by decide), ih rest]
      rfl
    rw [if_neg h5]
    by_cases h6 : c = '\x08'
    · subst h6
      rw [if_pos rfl]
      simp only [List.cons_append, List.nil_append]
      rw [parseStrChars_esc 'b' '\x08' _ (by decide) (by decide), ih rest]
      rfl
    rw [if_neg h6]
    by_cases h7 : c = '\x0c'
    · subst h7
      rw [if_pos rfl]
      simp only [List.cons_append, List.nil_append]
      rw [parseStrChars_esc 'f' '\x0c' _ (by decide) (by decide), ih rest]
      rfl
    rw [if_neg h7]
    by_cases hctl : c.toNat < 32
    · rw [if_pos hctl]
      simp only [List.cons_append, List.nil_append]
      have hvz : hexVal '0' = some 0 := by decide
      have hvh : hexVal (hexDigit (c.toNat / 16)) = some (c.toNat / 16) :=
        (by decide : ∀ m, m < 16 → hexVal (hexDigit m) = some m) _ (by omega)
      have hvl : hexVal (hexDigit (c.toNat % 16)) = some (c.toNat % 16) :=
        (by decide : ∀ m, m < 16 → hexVal (hexDigit m) = some m) _ (by omega)
      rw [parseStrChars_u '0' '0' (hexDigit (c.toNat / 16)) (hexDigit (c.toNat % 16))
        0 0 (c.toNat / 16) (c.toNat % 16) _ hvz hvz hvh hvl, ih rest]
      have harith : 4096 * 0 + 256 * 0 + 16 * (c.toNat / 16) + c.toNat % 16 = c.toNat := by
        omega
      rw [harith, Char.ofNat_toNat]
      rfl
    · rw [if_neg hctl]
      simp only [List.cons_append, List.nil_append]
      rw [parseStrChars_other c _ h1 h2 hctl, ih rest]
      rfl

/-- Skipping whitespace passes over a whitespace head. -/
theorem skipWs_cons_ws (c : Char) (cs : List Char) (h : isWs c = true) :
    skipWs (c :: cs) = skipWs cs := by
  simp [skipWs, h]

/-- Inserting a fresh key appends the pair. -/
theorem pyDictInsert_fresh (acc : List (String × JValue)) (k : String) (v : JValue)
    (h : k ∉ acc.map Prod.fst) : pyDictInsert acc k v = acc ++ [(k, v)] := by
  rw [pyDictInsert]
  have hc : (acc.map Prod.fst).contains k = false := by
    simpa using h
  rw [hc]
  simp

/-- Folding dict insertion over pairwise fresh keys appends them all. -/
theorem pyDictOfPairs_fold : ∀ (kvs acc : List (String × JValue)),
    nodupKeysB (kvs.map Prod.fst) = true →
    (∀ kk ∈ kvs.map Prod.fst, kk ∉ acc.map Prod.fst) →
    kvs.foldl (fun d kv => pyDictInsert d kv.1 kv.2) acc = acc ++ kvs := by
  intro kvs
  induction kvs with
  | nil => intro acc _ _; simp
  | cons kv kvs ih =>
    intro acc hnd hdisj
    obtain ⟨k, v⟩ := kv
    have hnd2 : nodupKeysB (kvs.map Prod.fst) = true := by
      rw [List.map_cons, nodupKeysB, Bool.and_eq_true] at hnd
      exact hnd.2
    have hknot : k ∉ kvs.map Prod.fst := by
      rw [List.map_cons, nodupKeysB, Bool.and_eq_true] at hnd
      simpa using hnd.1
    simp only [List.foldl_cons]
    rw [pyDictInsert_fresh acc k v (hdisj k (by simp))]
    rw [ih (acc ++ [(k, v)]) hnd2 ?_]
    · simp
    · intro kk hkk
      rw [List.map_append]
      simp only [List.mem_append, List.map_cons, List.map_nil, List.mem_singleton]
      rintro (hin | rfl)
      · exact hdisj kk (by simp [hkk]) hin
      · exact hknot hkk

/-- Building a Python dict from pairs with distinct keys is the
identity. -/
theorem pyDictOfPairs_nodup (kvs : List (String × JValue))
    (h : nodupKeysB (kvs.map Prod.fst) = true) : pyDictOfPairs kvs = kvs := by
  rw [pyDictOfPairs, pyDictOfPairs_fold kvs [] h (by simp)]
  simp

/-- A wellKeyed list is wellKeyed elementwise. -/
theorem wellKeyedList_mem : ∀ (xs : List JValue), wellKeyedList xs = true →
    ∀ x ∈ xs, wellKeyed x = true := by
  intro xs
  induction xs with
  | nil => intro _ x hx; cases hx
  | cons y ys ih =>
    intro h x hx
    rw [wellKeyedList, Bool.and_eq_true] at h
    rcases List.mem_cons.mp hx with rfl | hx2
    · exact h.1
    · exact ih h.2 x hx2

/-- WellKeyed members are wellKeyed valuewise. -/
theorem wellKeyedMems_mem : ∀ (kvs : List (String × JValue)), wellKeyedMems kvs = true →
    ∀ kv ∈ kvs, wellKeyed kv.2 = true := by
  intro kvs
  induction kvs with
  | nil => intro _ kv hkv; cases hkv
  | cons m ms ih =>
    intro h kv hkv
    rw [wellKeyedMems, Bool.and_eq_true] at h
    rcases List.mem_cons.mp hkv with rfl | hkv2
    · exact h.1
    · exact ih h.2 kv hkv2

/-- The parser ignores a whitespace prefix before a value. -/
theorem parseVal_ws_skip (fuel : Nat) (W t : List Char) (hW : ∀ c ∈ W, isWs c = true) :
    parseVal fuel (W ++ t) = parseVal fuel t := by
  cases fuel with
  | zero => rfl
  | succ f => simp only [parseVal, skipWs_append_ws W hW t]

/-- The element parser ignores a whitespace prefix. -/
theorem parseElems_ws_skip (fuel : Nat) (W t : List Char)
    (hW : ∀ c ∈ W, isWs c = true) :
    parseElems fuel (W ++ t) = parseElems fuel t := by
  cases fuel with
  | zero => rfl
  | succ f => simp only [parseElems, parseVal_ws_skip f W t hW]

/-- The member parser ignores a whitespace prefix. -/
theorem parseMems_ws_skip (fuel : Nat) (W t : List Char)
    (hW : ∀ c ∈ W, isWs c = true) :
    parseMems fuel (W ++ t) = parseMems fuel t := by
  cases fuel with
  | zero => rfl
  | succ f => simp only [parseMems, skipWs_append_ws W hW t]

/-- The rendering of any value starts with a character that is neither
whitespace nor a closing bracket. -/
theorem jsonRender_head (lvl : Nat) (v : JValue) :
    ∃ c t, jsonRender lvl v = c :: t ∧ isWs c = false ∧ c ≠ ']' ∧ c ≠ '\x7d' := by
  cases v with
  | num n =>
    rw [jsonRender, renderInt]
    by_cases hn : n < 0
    · rw [if_pos hn]
      refine ⟨'-', _, rfl, ?_, ?_, ?_⟩ <;> decide
    · rw [if_neg hn]
      obtain ⟨d, ds, hd, hdig⟩ := renderNat_head n.toNat
      rw [hd]
      refine ⟨d, ds, rfl, isWs_false_of_digit d hdig, ?_, ?_⟩
      · exact digit_ne d ']' hdig (by decide)
      · exact digit_ne d '\x7d' hdig (by decide)
  | bool b => cases b <;> (refine ⟨_, _, rfl, ?_, ?_, ?_⟩ <;> decide)
  | arr xs => cases xs <;> (refine ⟨_, _, rfl, ?_, ?_, ?_⟩ <;> decide)
  | obj kvs => cases kvs <;> (refine ⟨_, _, rfl, ?_, ?_, ?_⟩ <;> decide)
  | null => refine ⟨_, _, rfl, ?_, ?_, ?_⟩ <;> decide
  | str s => refine ⟨_, _, rfl, ?_, ?_, ?_⟩ <;> decide

/-- The continuation after one rendered element never starts with a
digit. -/
theorem noDigitHead_elemsTail (lvl : Nat) (xs : List JValue) (rest : List Char) :
    noDigitHead (jsonElemsTail lvl xs rest) = true := by
  cases xs <;> rfl

/-- The continuation after one rendered member never starts with a
digit. -/
theorem noDigitHead_memsTail (lvl : Nat) (kvs : List (String × JValue)) (rest : List Char) :
    noDigitHead (jsonMemsTail lvl kvs rest) = true := by
  cases kvs <;> rfl

/-- Decomposing the rendered elements of a nonempty array into the leading
whitespace, the first rendered element and its continuation. -/
theorem jsonRenderElems_decomp (lvl : Nat) (x : JValue) (xs : List JValue) (Z : List Char) :
    jsonRenderElems lvl (x :: xs) ++ ('\n' :: (jsonInd lvl ++ (']' :: Z))) =
      ('\n' :: jsonInd (lvl + 1)) ++
        (jsonRender (lvl + 1) x ++ jsonElemsTail lvl xs Z) := by
  cases xs <;> simp [jsonRenderElems, jsonElemsTail]

/-- Decomposing the rendered members of a nonempty object into the leading
whitespace, the first rendered member and its continuation. -/
theorem jsonRenderMems_decomp (lvl : Nat) (k : String) (v : JValue)
    (ms : List (String × JValue)) (Z : List Char) :
    jsonRenderMems lvl ((k, v) :: ms) ++ ('\n' :: (jsonInd lvl ++ ('\x7d' :: Z))) =
      ('\n' :: jsonInd (lvl + 1)) ++
        ('"' :: (escapeChars k.data ++
          ('"' :: ':' :: ' ' :: (jsonRender (lvl + 1) v ++ jsonMemsTail lvl ms Z)))) := by
  cases ms <;> simp [jsonRenderMems, jsonMemsTail]

/-- The leading whitespace of a rendered element or member line. -/
theorem ws_nl_ind (lvl : Nat) : ∀ c ∈ '\n' :: jsonInd lvl, isWs c = true := by
  intro c hc
  rcases List.mem_cons.mp hc with rfl | hc2
  · rfl
  · exact jsonInd_ws lvl c hc2

/-- Round trip at null. -/
theorem roundTrips_null : RoundTrips .null := by
  intro fuel lvl rest hfuel hnd hwk
  cases fuel with
  | zero => simp [pfuel] at hfuel
  | succ f => simp [jsonRender, parseVal, skipWs, isWs, isDigitCh]

/-- Round trip at a boolean. -/
theorem roundTrips_bool (b : Bool) : RoundTrips (.bool b) := by
  intro fuel lvl rest hfuel hnd hwk
  cases fuel with
  | zero => simp [pfuel] at hfuel
  | succ f => cases b <;> simp [jsonRender, parseVal, skipWs, isWs, isDigitCh]

/-- Round trip at a string. -/
theorem roundTrips_str (s : String) : RoundTrips (.str s) := by
  intro fuel lvl rest hfuel hnd hwk
  cases fuel with
  | zero => simp [pfuel] at hfuel
  | succ f =>
    rw [jsonRender]
    simp only [List.cons_append, List.append_assoc, List.nil_append]
    rw [parseVal]
    rw [skipWs_cons_not '"' _ (by decide)]
    simp only [reduceIte, parseStr_escape s.data rest]
    rfl

/-- Round trip at a number. -/
theorem roundTrips_num (n : Int) : RoundTrips (.num n) := by
  intro fuel lvl rest hfuel hnd hwk
  cases fuel with
  | zero => simp [pfuel] at hfuel
  | succ f =>
    rw [jsonRender, renderInt]
    by_cases hneg : n < 0
    · rw [if_pos hneg, List.cons_append]
      simp only [parseVal, skipWs_cons_not '-' _ (by decide), reduceIte]
      rw [parseNatNum_renderNat n.natAbs rest hnd]
      simp only [Option.map_some']
      have : -(n.natAbs : Int) = n := by omega
      rw [this]
      simp
    · rw [if_neg hneg]
      obtain ⟨d, ds, hd, hdig⟩ := renderNat_head n.toNat
      rw [hd, List.cons_append]
      simp only [parseVal, skipWs_cons_not d _ (isWs_false_of_digit d hdig)]
      rw [if_neg (digit_ne d '"' hdig (by decide))]
      rw [if_neg (digit_ne d '[' hdig (by decide))]
      rw [if_neg (digit_ne d '\x7b' hdig (by decide))]
      rw [if_neg (digit_ne d '-' hdig (by decide))]
      rw [if_pos hdig]
      have hrw : d :: (ds ++ rest) = renderNat n.toNat ++ rest := by rw [hd]; rfl
      rw [hrw, parseNatNum_renderNat n.toNat rest hnd]
      simp only [Option.map_some']
      have : ((n.toNat : Nat) : Int) = n := by omega
      rw [this]

/-- The element parser consumes one rendered element and its continuation,
producing the whole element list. -/
theorem parseElems_render (lvl : Nat) :
    ∀ (xs : List JValue) (x : JValue) (fuel : Nat) (rest : List Char),
      RoundTrips x → (∀ y ∈ xs, RoundTrips y) →
      wellKeyed x = true → (∀ y ∈ xs, wellKeyed y = true) →
      1 + pfuel x + pfuelElems xs ≤ fuel →
      parseElems fuel (jsonRender (lvl + 1) x ++ jsonElemsTail lvl xs rest) =
        some (x :: xs, rest) := by
  intro xs
  induction xs with
  | nil =>
    intro x fuel rest hx _ hwx _ hfuel
    rw [pfuelElems] at hfuel
    cases fuel with
    | zero => omega
    | succ f =>
      rw [parseElems, hx f (lvl + 1) (jsonElemsTail lvl [] rest) (by omega)
        (noDigitHead_elemsTail lvl [] rest) hwx]
      try dsimp only
      simp only [jsonElemsTail]
      rw [skipWs_cons_ws '\n' _ (by decide), skipWs_append_ws (jsonInd lvl) (jsonInd_ws lvl),
        skipWs_cons_not ']' _ (by decide)]
      rfl
  | cons y ys ih =>
    intro x fuel rest hx hys hwx hwys hfuel
    rw [pfuelElems] at hfuel
    cases fuel with
    | zero => omega
    | succ f =>
      rw [parseElems, hx f (lvl + 1) (jsonElemsTail lvl (y :: ys) rest) (by omega)
        (noDigitHead_elemsTail lvl (y :: ys) rest) hwx]
      try dsimp only
      conv_lhs =>
        rw [jsonElemsTail]
      rw [skipWs_cons_not ',' _ (by decide)]
      try dsimp only
      rw [jsonRenderElems_decomp lvl y ys rest]
      rw [parseElems_ws_skip f ('\n' :: jsonInd (lvl + 1)) _ (ws_nl_ind (lvl + 1))]
      rw [ih y f rest (hys y (List.mem_cons_self y ys))
        (fun z hz => hys z (List.mem_cons_of_mem y hz))
        (hwys y (List.mem_cons_self y ys))
        (fun z hz => hwys z (List.mem_cons_of_mem y hz))
        (by omega)]
      rfl

/-- The member parser consumes one rendered member and its continuation,
producing the whole member list. -/
theorem parseMems_render (lvl : Nat) :
    ∀ (kvs : List (String × JValue)) (k : String) (v : JValue) (fuel : Nat) (rest : List Char),
      RoundTrips v → (∀ kv ∈ kvs, RoundTrips kv.2) →
      wellKeyed v = true → (∀ kv ∈ kvs, wellKeyed kv.2 = true) →
      1 + pfuel v + pfuelMems kvs ≤ fuel →
      parseMems fuel ('"' :: (escapeChars k.data ++
          ('"' :: ':' :: ' ' :: (jsonRender (lvl + 1) v ++ jsonMemsTail lvl kvs rest)))) =
        some ((k, v) :: kvs, rest) := by
  intro kvs
  induction kvs with
  | nil =>
    intro k v fuel rest hv _ hwv _ hfuel
    rw [pfuelMems] at hfuel
    cases fuel with
    | zero => omega
    | succ f =>
      rw [parseMems]
      rw [skipWs_cons_not '"' _ (by decide)]
      try dsimp only
      rw [parseStr_escape k.data]
      try dsimp only
      rw [skipWs_cons_not ':' _ (by decide)]
      try dsimp only
      rw [show (' ' :: (jsonRender (lvl + 1) v ++ jsonMemsTail lvl [] rest)) =
        ([' '] ++ (jsonRender (lvl + 1) v ++ jsonMemsTail lvl [] rest)) from rfl]
      rw [parseVal_ws_skip f [' '] _ (by decide)]
      rw [hv f (lvl + 1) (jsonMemsTail lvl [] rest) (by omega)
        (noDigitHead_memsTail lvl [] rest) hwv]
      try dsimp only
      simp only [jsonMemsTail]
      rw [skipWs_cons_ws '\n' _ (by decide), skipWs_append_ws (jsonInd lvl) (jsonInd_ws lvl),
        skipWs_cons_not '\x7d' _ (by decide)]
      rfl
  | cons m ms ih =>
    intro k v fuel rest hv hms hwv hwms hfuel
    obtain ⟨k2, v2⟩ := m
    rw [pfuelMems] at hfuel
    dsimp only at hfuel
    cases fuel with
    | zero => omega
    | succ f =>
      rw [parseMems]
      rw [skipWs_cons_not '"' _ (by decide)]
      try dsimp only
      rw [parseStr_escape k.data]
      try dsimp only
      rw [skipWs_cons_not ':' _ (by decide)]
      try dsimp only
      rw [show (' ' :: (jsonRender (lvl + 1) v ++ jsonMemsTail lvl ((k2, v2) :: ms) rest)) =
        ([' '] ++ (jsonRender (lvl + 1) v ++ jsonMemsTail lvl ((k2, v2) :: ms) rest)) from rfl]
      rw [parseVal_ws_skip f [' '] _ (by decide)]
      rw [hv f (lvl + 1) (jsonMemsTail lvl ((k2, v2) :: ms) rest) (by omega)
        (noDigitHead_memsTail lvl ((k2, v2) :: ms) rest) hwv]
      try dsimp only
      conv_lhs =>
        rw [jsonMemsTail]
      rw [skipWs_cons_not ',' _ (by decide)]
      try dsimp only
      rw [jsonRenderMems_decomp lvl k2 v2 ms rest]
      rw [parseMems_ws_skip f ('\n' :: jsonInd (lvl + 1)) _ (ws_nl_ind (lvl + 1))]
      rw [ih k2 v2 f rest (hms (k2, v2) (List.mem_cons_self (k2, v2) ms))
        (fun z hz => hms z (List.mem_cons_of_mem (k2, v2) hz))
        (hwms (k2, v2) (List.mem_cons_self (k2, v2) ms))
        (fun z hz => hwms z (List.mem_cons_of_mem (k2, v2) hz))
        (by omega)]
      rfl

/-- Round trip at an array. -/
theorem roundTrips_arr (xs : List JValue) (IH : ∀ x ∈ xs, RoundTrips x) :
    RoundTrips (.arr xs) := by
  intro fuel lvl rest hfuel hnd hwk
  cases fuel with
  | zero => rw [pfuel] at hfuel; omega
  | succ f =>
    cases xs with
    | nil => simp [jsonRender, parseVal, skipWs, isWs, isDigitCh]
    | cons x xs2 =>
      rw [pfuel, pfuelElems] at hfuel
      rw [wellKeyed, wellKeyedList, Bool.and_eq_true] at hwk
      rw [jsonRender]
      try dsimp only
      simp only [List.cons_append, List.append_assoc, List.nil_append]
      rw [parseVal, skipWs_cons_not '[' _ (by decide)]
      dsimp only
      rw [if_neg (by decide : ¬('[' : Char) = '"')]
      rw [if_pos (show ('[' : Char) = '[' from rfl)]
      rw [jsonRenderElems_decomp lvl x xs2 rest]
      rw [skipWs_append_ws ('\n' :: jsonInd (lvl + 1)) (ws_nl_ind (lvl + 1))]
      obtain ⟨c0, t0, hhead, hws, hne1, hne2⟩ := jsonRender_head (lvl + 1) x
      rw [hhead, List.cons_append c0 t0 (jsonElemsTail lvl xs2 rest)]
      rw [skipWs_cons_not c0 _ hws]
      dsimp only
      rw [if_neg hne1]
      rw [show c0 :: (t0 ++ jsonElemsTail lvl xs2 rest) =
        jsonRender (lvl + 1) x ++ jsonElemsTail lvl xs2 rest from by rw [hhead]; rfl]
      rw [parseElems_render lvl xs2 x f rest (IH x (List.mem_cons_self x xs2))
        (fun z hz => IH z (List.mem_cons_of_mem x hz)) hwk.1
        (wellKeyedList_mem xs2 hwk.2) (by omega)]
      rfl

/-- Round trip at an object. -/
theorem roundTrips_obj (kvs : List (String × JValue)) (IH : ∀ kv ∈ kvs, RoundTrips kv.2) :
    RoundTrips (.obj kvs) := by
  intro fuel lvl rest hfuel hnd hwk
  cases fuel with
  | zero => rw [pfuel] at hfuel; omega
  | succ f =>
    cases kvs with
    | nil => simp [jsonRender, parseVal, skipWs, isWs, isDigitCh]
    | cons m ms =>
      obtain ⟨k, v⟩ := m
      rw [pfuel, pfuelMems] at hfuel
      dsimp only at hfuel
      rw [wellKeyed, Bool.and_eq_true] at hwk
      obtain ⟨hnodup, hmems⟩ := hwk
      rw [wellKeyedMems, Bool.and_eq_true] at hmems
      obtain ⟨hwv, htail⟩ := hmems
      dsimp only at hwv
      rw [jsonRender]
      try dsimp only
      simp only [List.cons_append, List.append_assoc, List.nil_append]
      rw [parseVal, skipWs_cons_not '\x7b' _ (by decide)]
      dsimp only
      rw [if_neg (by decide : ¬('\x7b' : Char) = '"')]
      rw [if_neg (by decide : ¬('\x7b' : Char) = '[')]
      rw [if_pos (show ('\x7b' : Char) = '\x7b' from rfl)]
      rw [jsonRenderMems_decomp lvl k v ms rest]
      rw [skipWs_append_ws ('\n' :: jsonInd (lvl + 1)) (ws_nl_ind (lvl + 1))]
      rw [skipWs_cons_not '"' _ (by decide)]
      dsimp only
      rw [if_neg (by decide : ¬('"' : Char) = '\x7d')]
      rw [parseMems_render lvl ms k v f rest (by simpa using IH (k, v) (List.mem_cons_self (k, v) ms))
        (fun z hz => IH z (List.mem_cons_of_mem (k, v) hz)) hwv
        (wellKeyedMems_mem ms htail) (by omega)]
      dsimp only [Option.map_some']
      rw [pyDictOfPairs_nodup ((k, v) :: ms) hnodup]

/-- The parser inverts the pretty renderer on every value whose objects
have pairwise distinct keys. -/
theorem roundTrips_all : ∀ v, RoundTrips v :=
  jvalueRecAll RoundTrips roundTrips_null roundTrips_bool roundTrips_num roundTrips_str
    roundTrips_arr roundTrips_obj

/-- The fuel needed for a list of elements is within one of its rendered
length. -/
theorem pfuelElems_le (lvl : Nat) : ∀ xs : List JValue,
    (∀ x ∈ xs, ∀ l, pfuel x ≤ (jsonRender l x).length + 1) →
    pfuelElems xs ≤ (jsonRenderElems lvl xs).length + 1 := by
  intro xs
  induction xs with
  | nil => intro _; simp [pfuelElems, jsonRenderElems]
  | cons x xs ih =>
    intro h
    cases xs with
    | nil =>
      have hx := h x (List.mem_cons_self x []) (lvl + 1)
      rw [pfuelElems, pfuelElems, jsonRenderElems]
      simp only [List.length_cons, List.length_append, jsonInd, List.length_replicate]
      omega
    | cons y ys =>
      have hx := h x (List.mem_cons_self x (y :: ys)) (lvl + 1)
      have hys := ih (fun z hz l => h z (List.mem_cons_of_mem x hz) l)
      rw [pfuelElems, jsonRenderElems]
      simp only [List.length_cons, List.length_append, jsonInd, List.length_replicate]
      simp only [jsonRenderElems] at hys
      omega

/-- The fuel needed for a list of members is within one of its rendered
length. -/
theorem pfuelMems_le (lvl : Nat) : ∀ kvs : List (String × JValue),
    (∀ kv ∈ kvs, ∀ l, pfuel kv.2 ≤ (jsonRender l kv.2).length + 1) →
    pfuelMems kvs ≤ (jsonRenderMems lvl kvs).length + 1 := by
  intro kvs
  induction kvs with
  | nil => intro _; simp [pfuelMems, jsonRenderMems]
  | cons m ms ih =>
    intro h
    obtain ⟨k, v⟩ := m
    cases ms with
    | nil =>
      have hv := h (k, v) (List.mem_cons_self (k, v) []) (lvl + 1)
      rw [pfuelMems, pfuelMems, jsonRenderMems]
      simp only [List.length_cons, List.length_append, jsonInd, List.length_replicate]
      dsimp only at hv
      omega
    | cons m2 ms2 =>
      have hv := h (k, v) (List.mem_cons_self (k, v) (m2 :: ms2)) (lvl + 1)
      have hms := ih (fun z hz l => h z (List.mem_cons_of_mem (k, v) hz) l)
      rw [pfuelMems, jsonRenderMems]
      simp only [List.length_cons, List.length_append, jsonInd, List.length_replicate]
      simp only [jsonRenderMems] at hms
      dsimp only at hv hms
      omega

/-- The fuel needed for a value is within one of its rendered length, so
parsing with fuel one more than the input length always suffices. -/
theorem pfuel_le_render : ∀ v : JValue, ∀ lvl, pfuel v ≤ (jsonRender lvl v).length + 1 := by
  apply jvalueRecAll (fun v => ∀ lvl, pfuel v ≤ (jsonRender lvl v).length + 1)
  · intro lvl
    simp [pfuel, jsonRender]
  · intro b lvl
    cases b <;> simp [pfuel, jsonRender]
  · intro n lvl
    rw [pfuel, jsonRender]
    omega
  · intro s lvl
    rw [pfuel, jsonRender]
    simp
  · intro xs hxs lvl
    cases xs with
    | nil => simp [pfuel, pfuelElems, jsonRender]
    | cons x xs2 =>
      rw [pfuel, jsonRender]
      try dsimp only
      have hel := pfuelElems_le lvl (x :: xs2) hxs
      simp only [List.length_cons, List.length_append, jsonInd, List.length_replicate] at hel ⊢
      omega
  · intro kvs hkvs lvl
    cases kvs with
    | nil => simp [pfuel, pfuelMems, jsonRender]
    | cons m ms =>
      rw [pfuel, jsonRender]
      try dsimp only
      have hml := pfuelMems_le lvl (m :: ms) hkvs
      simp only [List.length_cons, List.length_append, jsonInd, List.length_replicate] at hml ⊢
      omega

/-! Claim C8: export_json writes the serialization of the mapping and
parsing the written text back yields the original mapping, with non-ASCII
characters written verbatim. -/

/-- Claim C8: for every mapping whose objects carry pairwise distinct
keys (the invariant of every Python dict), export_json creates the parent
directory and writes exactly the pretty rendering of the mapping, returns
the written path, parsing the written text back yields a mapping equal to
the original, and every non-ASCII character is written verbatim by the
escape (never escaped). -/
theorem export_json_roundtrip (kvs : List (String × JValue)) (dir file : String)
    (h : wellKeyed (.obj kvs) = true) :
    (export_json (.obj kvs) dir file true).2 =
      [.mkdir dir, .write dir file (String.mk (jsonRender 0 (.obj kvs)))] ∧
    (export_json (.obj kvs) dir file true).1 = .ok (joinPath dir file) ∧
    parseJson (String.mk (jsonRender 0 (.obj kvs))) = some (.obj kvs) ∧
    (∀ c : Char, 127 < c.toNat → escapeChar c = [c]) := by
  refine ⟨rfl, rfl, ?_, ?_⟩
  · rw [parseJson]
    have hdata : (String.mk (jsonRender 0 (.obj kvs))).data = jsonRender 0 (.obj kvs) := rfl
    rw [hdata]
    have hfuel : pfuel (.obj kvs) ≤ (jsonRender 0 (.obj kvs)).length + 1 :=
      pfuel_le_render (.obj kvs) 0
    have hrt := roundTrips_all (.obj kvs) ((jsonRender 0 (.obj kvs)).length + 1) 0 [] hfuel rfl h
    rw [List.append_nil] at hrt
    rw [hrt]
    rfl
  · intro c hc
    have h1 : c ≠ '"' := fun he => absurd (he ▸ hc) (by decide)
    have h2 : c ≠ '\\' := fun he => absurd (he ▸ hc) (by decide)
    have h3 : c ≠ '\n' := fun he => absurd (he ▸ hc) (by decide)
    have h4 : c ≠ '\t' := fun he => absurd (he ▸ hc) (by decide)
    have h5 : c ≠ '\r' := fun he => absurd (he ▸ hc) (by decide)
    have h6 : c ≠ '\x08' := fun he => absurd (he ▸ hc) (by decide)
    have h7 : c ≠ '\x0c' := fun he => absurd (he ▸ hc) (by decide)
    rw [escapeChar, if_neg h1, if_neg h2, if_neg h3, if_neg h4, if_neg h5, if_neg h6,
      if_neg h7, if_neg (show ¬c.toNat < 32 by omega)]

/-- Witness for claim C8 at a concrete mapping mixing a non-ASCII key and
value, escapes, a control character, a negative number and nested
containers. -/
theorem export_json_roundtrip_witness :
    wellKeyed (.obj [("café", .str "a\"b\\c\nñ"), ("n", .num (-42)),
      ("arr", .arr [.null, .bool true, .obj [("k", .num 7)]]), ("ctl", .str "\x01")]) = true ∧
    parseJson (String.mk (jsonRender 0 (.obj [("café", .str "a\"b\\c\nñ"), ("n", .num (-42)),
        ("arr", .arr [.null, .bool true, .obj [("k", .num 7)]]), ("ctl", .str "\x01")]))) =
      some (.obj [("café", .str "a\"b\\c\nñ"), ("n", .num (-42)),
        ("arr", .arr [.null, .bool true, .obj [("k", .num 7)]]), ("ctl", .str "\x01")]) := by
  refine ⟨rfl, ?_⟩
  exact (export_json_roundtrip [("café", .str "a\"b\\c\nñ"), ("n", .num (-42)),
    ("arr", .arr [.null, .bool true, .obj [("k", .num 7)]]), ("ctl", .str "\x01")]
    "out" "t.json" rfl).2.2.1
